import Mathlib

/-!
Verification of the state-and-layout subsystem of the LCC touchscreen
control panel (turnout registry, panel layout model, geometry engine,
persistence stores, JMRI roster import).

Shallow embedding conventions:
  * `uint64` event ids are modelled as `Nat`; the code only compares them
    for equality, so no wrap-around arithmetic is involved.
  * `int64` timestamps are modelled as `Int` (`esp_timer_get_time` values
    are passed in explicitly as a `now` parameter).
  * `int16_t` casts in the geometry engine are modelled by an explicit
    `toInt16` wrap function; C integer division truncates toward zero and
    is modelled by `Int.tdiv`.
  * C arrays `buf[0..count)` are modelled as Lean lists.
  * The state-changed callback is modelled by returning the list of
    `(index, state)` invocations a call performs.
-/

namespace LCC

/-- Turnout state enumeration (`turnout_state_t` in ui_common.h). -/
inductive TurnoutState
  | unknown
  | normal
  | reverse
  | stale
deriving DecidableEq, Repr

/-- Turnout record (`turnout_t` in ui_common.h).  The `name` field is a
31-character bounded C string modelled as a Lean `String`. -/
structure Turnout where
  id : Nat
  name : String
  event_normal : Nat
  event_reverse : Nat
  state : TurnoutState
  last_update_us : Int
  command_pending : Bool
  user_order : Nat
deriving DecidableEq, Repr

/-- Capacity of the turnout table (`TURNOUT_MAX_COUNT`). -/
def TURNOUT_MAX_COUNT : Nat := 150

/-- The registry `s_turnouts[0..s_count)` as a list. -/
abbrev Registry := List Turnout

/-- Name assignment in `turnout_manager_add`: a nonempty name is truncated
to 31 characters by `strncpy`, an empty or null name defaults to
`"Turnout %d"` with `idx + 1`. -/
def mkAddName (name : String) (idx : Nat) : String :=
  if name ≠ "" then ⟨name.data.take 31⟩ else "Turnout " ++ toString (idx + 1)

/-- Duplicate test performed inside `turnout_manager_add`'s scan loop:
the candidate normal id is compared only against existing normal ids and
the candidate reverse id only against existing reverse ids. -/
def addDupHit (event_normal event_reverse : Nat) (t : Turnout) : Bool :=
  t.event_normal == event_normal || t.event_reverse == event_reverse

/-- Embedding of `turnout_manager_add` (turnout_manager.c:113-155).
Returns the new registry and the C return value (new index, or -1 on
capacity or duplicate rejection). -/
def turnout_manager_add (reg : Registry) (event_normal event_reverse : Nat)
    (name : String) : Registry × Int :=
  if reg.length ≥ TURNOUT_MAX_COUNT then (reg, -1)
  else if reg.any (addDupHit event_normal event_reverse) then (reg, -1)
  else
    let idx := reg.length
    (reg ++ [{ id := 0
               name := mkAddName name idx
               event_normal := event_normal
               event_reverse := event_reverse
               state := .unknown
               last_update_us := 0
               command_pending := false
               user_order := idx }], (idx : Int))

/-- Embedding of `turnout_manager_remove` (turnout_manager.c:157-179):
shifts the remaining entries down (list `eraseIdx`); out-of-range index
leaves the registry unchanged. -/
def turnout_manager_remove (reg : Registry) (index : Nat) : Registry :=
  if index ≥ reg.length then reg else reg.eraseIdx index

/-- Match test used by the scan loops of `turnout_manager_find_by_event`
and `turnout_manager_set_state_by_event`. -/
def matchEvent (event_id : Nat) (t : Turnout) : Bool :=
  t.event_normal == event_id || t.event_reverse == event_id

/-- Embedding of `turnout_manager_find_by_event`
(turnout_manager.c:264-278): index of the first turnout whose normal or
reverse event id equals `event_id`, or -1. -/
def turnout_manager_find_by_event (reg : Registry) (event_id : Nat) : Int :=
  match reg.findIdx? (matchEvent event_id) with
  | some i => (i : Int)
  | none => -1

/-- Field update performed on a state match in
`turnout_manager_set_state_by_event`: set the state, stamp
`last_update_us` from `esp_timer_get_time()` (passed as `now`), clear
`command_pending`. -/
def setStateUpd (t : Turnout) (st : TurnoutState) (now : Int) : Turnout :=
  { t with state := st, last_update_us := now, command_pending := false }

/-- Embedding of `turnout_manager_set_state_by_event`
(turnout_manager.c:217-253).  The scan stops at the first turnout whose
normal or reverse id equals `event_id`; the normal id is tested first.
The `state` argument of the C function is unused by its body (the new
state is derived from which id matched), and is therefore not a
parameter here.  Returns the new registry and the list of callback
invocations `(index, new state)`. -/
def turnout_manager_set_state_by_event (reg : Registry) (event_id : Nat)
    (now : Int) : Registry × List (Nat × TurnoutState) :=
  match reg with
  | [] => ([], [])
  | t :: rest =>
    if t.event_normal = event_id then
      (setStateUpd t .normal now :: rest, [(0, .normal)])
    else if t.event_reverse = event_id then
      (setStateUpd t .reverse now :: rest, [(0, .reverse)])
    else
      let r := turnout_manager_set_state_by_event rest event_id now
      (t :: r.1, r.2.map (fun p => (p.1 + 1, p.2)))

/-- Staleness test of `turnout_manager_check_stale`
(turnout_manager.c:289-296): only turnouts with a nonzero timestamp in
state Normal or Reverse whose age strictly exceeds the threshold are
marked. -/
def staleCond (threshold_us now : Int) (t : Turnout) : Bool :=
  t.last_update_us > 0 &&
  (t.state == TurnoutState.normal || t.state == TurnoutState.reverse) &&
  (now - t.last_update_us > threshold_us)

/-- Scan loop of `turnout_manager_check_stale`: marks every stale turnout
and records one callback invocation per marked turnout. -/
def checkStaleGo (threshold_us now : Int) :
    List Turnout → List Turnout × List (Nat × TurnoutState)
  | [] => ([], [])
  | t :: rest =>
    let r := checkStaleGo threshold_us now rest
    let cbs := r.2.map (fun p => (p.1 + 1, p.2))
    if staleCond threshold_us now t then
      ({ t with state := .stale } :: r.1, (0, TurnoutState.stale) :: cbs)
    else
      (t :: r.1, cbs)

/-- Embedding of `turnout_manager_check_stale` (turnout_manager.c:280-312).
`timeout_ms == 0` disables the sweep; otherwise the threshold is
`timeout_ms * 1000` microseconds. -/
def turnout_manager_check_stale (reg : Registry) (timeout_ms : Nat)
    (now : Int) : Registry × List (Nat × TurnoutState) :=
  if timeout_ms = 0 then (reg, [])
  else checkStaleGo ((timeout_ms : Int) * 1000) now reg

/-- Characterization of `turnout_manager_set_state_by_event`: either no
turnout matches the event id and the call is a no-op with no callback, or
the lowest-indexed matching turnout is updated (Normal if its normal id
matched, else Reverse) and exactly one callback fires. -/
theorem sse_spec (reg : Registry) (ev : Nat) (now : Int) :
    ((∀ t ∈ reg, matchEvent ev t = false) ∧
      turnout_manager_set_state_by_event reg ev now = (reg, [])) ∨
    (∃ i t, reg[i]? = some t ∧ matchEvent ev t = true ∧
      (∀ j u, j < i → reg[j]? = some u → matchEvent ev u = false) ∧
      turnout_manager_set_state_by_event reg ev now =
        (reg.set i (setStateUpd t
            (if t.event_normal = ev then TurnoutState.normal else TurnoutState.reverse) now),
          [(i, if t.event_normal = ev then TurnoutState.normal else TurnoutState.reverse)])) := by
  induction reg with
  | nil => exact Or.inl ⟨by simp, rfl⟩
  | cons t rest ih =>
    by_cases hn : t.event_normal = ev
    · refine Or.inr ⟨0, t, by simp, by simp [matchEvent, hn], ?_, ?_⟩
      · intro j u hj _; omega
      · simp [turnout_manager_set_state_by_event, hn]
    · by_cases hr : t.event_reverse = ev
      · refine Or.inr ⟨0, t, by simp, by simp [matchEvent, hr], ?_, ?_⟩
        · intro j u hj _; omega
        · simp [turnout_manager_set_state_by_event, hn, hr]
      · have hm : matchEvent ev t = false := by simp [matchEvent, hn, hr]
        have hfun : turnout_manager_set_state_by_event (t :: rest) ev now =
            (t :: (turnout_manager_set_state_by_event rest ev now).1,
             (turnout_manager_set_state_by_event rest ev now).2.map
               (fun p => (p.1 + 1, p.2))) := by
          simp [turnout_manager_set_state_by_event, hn, hr]
        rcases ih with ⟨hall, heq⟩ | ⟨i, u, hget, hmatch, hmin, heq⟩
        · refine Or.inl ⟨?_, ?_⟩
          · intro x hx
            rcases List.mem_cons.mp hx with h | h
            · exact h ▸ hm
            · exact hall x h
          · rw [hfun, heq]; rfl
        · refine Or.inr ⟨i + 1, u, by simpa using hget, hmatch, ?_, ?_⟩
          · intro j w hj hw
            cases j with
            | zero =>
              have : t = w := by simpa using hw
              exact this ▸ hm
            | succ k => exact hmin k w (by omega) (by simpa using hw)
          · rw [hfun, heq]; rfl

/-- C10: `turnout_manager_set_state_by_event` modifies at most one
turnout — the lowest-indexed one whose normal or reverse id equals the
given event id; every other turnout, the table order and the count are
unchanged, and at most one callback fires per call. -/
theorem set_state_by_event_frame (reg : Registry) (ev : Nat) (now : Int) :
    (turnout_manager_set_state_by_event reg ev now).1.length = reg.length ∧
    (turnout_manager_set_state_by_event reg ev now).2.length ≤ 1 ∧
    (∀ (j : Nat) (u : Turnout), reg[j]? = some u →
      ((turnout_manager_set_state_by_event reg ev now).1[j]? = some u ∨
       (matchEvent ev u = true ∧
        (∀ k w, k < j → reg[k]? = some w → matchEvent ev w = false) ∧
        (turnout_manager_set_state_by_event reg ev now).1[j]? =
          some (setStateUpd u
            (if u.event_normal = ev then TurnoutState.normal else TurnoutState.reverse) now)))) := by
  rcases sse_spec reg ev now with ⟨hall, heq⟩ | ⟨i, t, hget, hmatch, hmin, heq⟩
  · rw [heq]
    exact ⟨rfl, by simp, fun j u hj => Or.inl hj⟩
  · rw [heq]
    refine ⟨by simp, by simp, ?_⟩
    intro j u hj
    by_cases hji : j = i
    · subst hji
      have htu : t = u := by rw [hget] at hj; exact Option.some.inj hj
      subst htu
      refine Or.inr ⟨hmatch, hmin, ?_⟩
      have hlen : j < reg.length := by
        have := List.getElem?_eq_some_iff.mp hget
        exact this.1
      simp [List.getElem?_set_self, hlen]
    · exact Or.inl (by simp [List.getElem?_set_ne (fun h => hji h.symm), hj])

/-- Concrete turnout used by witnesses, matching the spec's worked
example (`T1` with events 05.01.01.01.22.60.00.00 / ...01). -/
def exT1 : Turnout :=
  { id := 0, name := "T1", event_normal := 0x0501010122600000,
    event_reverse := 0x0501010122600001, state := .unknown,
    last_update_us := 0, command_pending := false, user_order := 0 }

/-- Witness for C10 at a concrete two-turnout registry: updating by the
second turnout's reverse id leaves the first turnout untouched. -/
theorem set_state_by_event_frame_witness :
    ((turnout_manager_set_state_by_event
        [exT1, { exT1 with event_normal := 10, event_reverse := 11 }] 11 42).1[0]? =
      some exT1) ∧
    (turnout_manager_set_state_by_event
        [exT1, { exT1 with event_normal := 10, event_reverse := 11 }] 11 42).2.length ≤ 1 := by
  have h := set_state_by_event_frame
    [exT1, { exT1 with event_normal := 10, event_reverse := 11 }] 11 42
  refine ⟨?_, h.2.1⟩
  rcases h.2.2 0 exT1 (by rfl) with h0 | ⟨hm, _, _⟩
  · exact h0
  · exact absurd hm (by decide)

/-- C4: `turnout_manager_set_state_by_event` on the first matching
turnout sets Normal when the event id equals its `event_normal` (tested
first) and Reverse when it equals its `event_reverse`; in either case the
state is set, `last_update_us` is stamped with the current time and
`command_pending` is cleared, exactly one callback `(index, new state)`
fires, and on no match the registry is unchanged with no callback. -/
theorem set_state_by_event_role_correct (reg : Registry) (ev : Nat) (now : Int) :
    (∀ (i : Nat) (t : Turnout), reg[i]? = some t →
      (∀ (j : Nat) (u : Turnout), j < i → reg[j]? = some u → matchEvent ev u = false) →
      ((t.event_normal = ev →
        turnout_manager_set_state_by_event reg ev now =
          (reg.set i { t with state := .normal, last_update_us := now,
                              command_pending := false },
           [(i, TurnoutState.normal)])) ∧
       (t.event_normal ≠ ev → t.event_reverse = ev →
        turnout_manager_set_state_by_event reg ev now =
          (reg.set i { t with state := .reverse, last_update_us := now,
                              command_pending := false },
           [(i, TurnoutState.reverse)])))) ∧
    ((∀ t ∈ reg, matchEvent ev t = false) →
      turnout_manager_set_state_by_event reg ev now = (reg, [])) := by
  constructor
  · intro i t hget hmin
    have key : ∀ st : TurnoutState,
        (if t.event_normal = ev then TurnoutState.normal else TurnoutState.reverse) = st →
        matchEvent ev t = true →
        turnout_manager_set_state_by_event reg ev now =
          (reg.set i (setStateUpd t st now), [(i, st)]) := by
      intro st hst hmatch
      rcases sse_spec reg ev now with ⟨hall, _⟩ | ⟨i2, t2, hget2, hmatch2, hmin2, heq2⟩
      · have := hall t (List.getElem?_mem hget)
        rw [this] at hmatch; exact absurd hmatch (by simp)
      · have hii : i2 = i := by
          rcases Nat.lt_trichotomy i2 i with h | h | h
          · have := hmin i2 t2 h hget2
            rw [this] at hmatch2; exact absurd hmatch2 (by simp)
          · exact h
          · have := hmin2 i t h hget
            rw [this] at hmatch; exact absurd hmatch (by simp)
        subst hii
        have htt : t2 = t := by rw [hget] at hget2; exact (Option.some.inj hget2).symm
        subst htt
        rw [heq2, hst]
    refine ⟨?_, ?_⟩
    · intro hn
      have := key TurnoutState.normal (by simp [hn]) (by simp [matchEvent, hn])
      simpa [setStateUpd] using this
    · intro hn hr
      have := key TurnoutState.reverse (by simp [hn]) (by simp [matchEvent, hr])
      simpa [setStateUpd] using this
  · intro hall
    rcases sse_spec reg ev now with ⟨_, heq⟩ | ⟨i, t, hget, hmatch, _, _⟩
    · exact heq
    · have := hall t (List.getElem?_mem hget)
      rw [this] at hmatch; exact absurd hmatch (by simp)

/-- Witness for C4: the spec's worked example.  `add` on the empty
registry returns index 0 with state Unknown; updating by the normal
event id sets Normal, stamps the (nonzero) time and clears the pending
flag; updating by the reverse id sets Reverse. -/
theorem set_state_by_event_role_correct_witness :
    (turnout_manager_add [] 0x0501010122600000 0x0501010122600001 "T1").2 = 0 ∧
    (turnout_manager_add [] 0x0501010122600000 0x0501010122600001 "T1").1 = [exT1] ∧
    exT1.state = .unknown ∧
    turnout_manager_set_state_by_event [exT1] 0x0501010122600000 42 =
      ([{ exT1 with state := .normal, last_update_us := 42, command_pending := false }],
       [(0, TurnoutState.normal)]) ∧
    turnout_manager_set_state_by_event [exT1] 0x0501010122600001 42 =
      ([{ exT1 with state := .reverse, last_update_us := 42, command_pending := false }],
       [(0, TurnoutState.reverse)]) := by
  refine ⟨by decide, by decide, by decide, ?_, ?_⟩
  · have h := ((set_state_by_event_role_correct [exT1] 0x0501010122600000 42).1 0 exT1
      (by rfl) (by intro j u hj _; omega)).1 (by decide)
    simpa using h
  · have h := ((set_state_by_event_role_correct [exT1] 0x0501010122600001 42).1 0 exT1
      (by rfl) (by intro j u hj _; omega)).2 (by decide) (by decide)
    simpa using h

/-- C1 (code bug): `turnout_manager_add` checks the new normal id only
against existing normal ids and the new reverse id only against existing
reverse ids, so a second add whose normal id equals an existing
turnout's reverse id is accepted: after `add(N₀, R₀)` succeeds,
`add(R₀, X)` also succeeds, two live turnouts then share event id `R₀`
(one as reverse, one as normal), and `find_by_event R₀` can only return
one of them. -/
theorem turnout_add_cross_role_duplicate_bug :
    (turnout_manager_add
      (turnout_manager_add [] 0x0501010122600000 0x0501010122600001 "A").1
      0x0501010122600001 0x0501010122600002 "B").2 = 1 ∧
    ((turnout_manager_add
      (turnout_manager_add [] 0x0501010122600000 0x0501010122600001 "A").1
      0x0501010122600001 0x0501010122600002 "B").1.countP
        (fun t => t.event_normal == 0x0501010122600001 ||
                  t.event_reverse == 0x0501010122600001)) = 2 ∧
    turnout_manager_find_by_event
      (turnout_manager_add
        (turnout_manager_add [] 0x0501010122600000 0x0501010122600001 "A").1
        0x0501010122600001 0x0501010122600002 "B").1
      0x0501010122600001 = 0 := by
  refine ⟨by decide, by decide, by decide⟩

/-- The stale sweep maps each turnout independently: stale candidates
are re-marked Stale, all others are returned unchanged. -/
theorem checkStaleGo_fst (th now : Int) (l : List Turnout) :
    (checkStaleGo th now l).1 =
      l.map (fun t => if staleCond th now t then { t with state := .stale } else t) := by
  induction l with
  | nil => rfl
  | cons t rest ih =>
    by_cases h : staleCond th now t
    · simp [checkStaleGo, h, ih]
    · simp [checkStaleGo, h, ih]

/-- Every callback recorded by the stale sweep reports state Stale. -/
theorem checkStaleGo_snd_stale (th now : Int) (l : List Turnout) :
    ∀ p ∈ (checkStaleGo th now l).2, p.2 = TurnoutState.stale := by
  induction l with
  | nil => intro p hp; simp [checkStaleGo] at hp
  | cons t rest ih =>
    intro p hp
    by_cases h : staleCond th now t
    · simp only [checkStaleGo, h, if_true] at hp
      rcases List.mem_cons.mp hp with h0 | hmem
      · rw [h0]
      · rcases List.mem_map.mp hmem with ⟨q, hq, hqe⟩
        rw [← hqe]; exact ih q hq
    · simp only [checkStaleGo, h, if_false] at hp
      rcases List.mem_map.mp hp with ⟨q, hq, hqe⟩
      rw [← hqe]; exact ih q hq

/-- Per-index callback accounting of the stale sweep: a turnout meeting
the staleness condition produces exactly one callback, any other turnout
produces none. -/
theorem checkStaleGo_snd_count (th now : Int) (l : List Turnout) :
    ∀ (j : Nat) (t : Turnout), l[j]? = some t →
      (staleCond th now t = true →
        (checkStaleGo th now l).2.countP
          (fun p => decide (p = (j, TurnoutState.stale))) = 1) ∧
      (staleCond th now t = false →
        ∀ s, (j, s) ∉ (checkStaleGo th now l).2) := by
  induction l with
  | nil => intro j t hj; simp at hj
  | cons u rest ih =>
    intro j t hj
    cases j with
    | zero =>
      have htu : u = t := by simpa using hj
      subst htu
      constructor
      · intro hc
        simp only [checkStaleGo, hc, if_true]
        have hz : (List.map (fun p : Nat × TurnoutState => (p.1 + 1, p.2))
            (checkStaleGo th now rest).2).countP
              (fun p => decide (p = (0, TurnoutState.stale))) = 0 := by
          rw [List.countP_eq_zero]
          intro a hmem
          rcases List.mem_map.mp hmem with ⟨q, _, hqe⟩
          intro hcontra
          have h0 : a = (0, TurnoutState.stale) := of_decide_eq_true hcontra
          rw [h0] at hqe
          have : q.1 + 1 = 0 := congrArg Prod.fst hqe
          omega
        rw [List.countP_cons_of_pos _ _ (by simp), hz]
      · intro hc s hmem
        simp only [checkStaleGo, hc, if_false] at hmem
        rcases List.mem_map.mp hmem with ⟨q, _, hqe⟩
        have : q.1 + 1 = 0 := congrArg Prod.fst hqe
        omega
    | succ k =>
      have hk : rest[k]? = some t := by simpa using hj
      constructor
      · intro hc
        have hcount : (List.map (fun p : Nat × TurnoutState => (p.1 + 1, p.2))
            (checkStaleGo th now rest).2).countP
              (fun p => decide (p = (k + 1, TurnoutState.stale))) = 1 := by
          rw [List.countP_map]
          have hcg : ∀ q ∈ (checkStaleGo th now rest).2,
              (((fun p : Nat × TurnoutState => decide (p = (k + 1, TurnoutState.stale))) ∘
                (fun p : Nat × TurnoutState => (p.1 + 1, p.2))) q = true) ↔
              ((fun p : Nat × TurnoutState => decide (p = (k, TurnoutState.stale))) q = true) := by
            intro q _
            have hiff : ((q.1 + 1, q.2) = (k + 1, TurnoutState.stale)) ↔
                (q = (k, TurnoutState.stale)) := by
              constructor
              · intro h
                have h1 := congrArg Prod.fst h
                have h2 := congrArg Prod.snd h
                simp only at h1 h2
                exact Prod.ext_iff.mpr ⟨by omega, h2⟩
              · intro h; rw [h]
            show (decide ((q.1 + 1, q.2) = (k + 1, TurnoutState.stale)) = true) ↔
              (decide (q = (k, TurnoutState.stale)) = true)
            simp only [decide_eq_true_eq]
            exact hiff
          rw [List.countP_congr hcg]
          exact (ih k t hk).1 hc
        by_cases hu : staleCond th now u
        · simp only [checkStaleGo, hu, if_true]
          rw [List.countP_cons_of_neg _ _ (by simp), hcount]
        · simp only [checkStaleGo, hu, if_false]
          exact hcount
      · intro hc s hmem
        have hnot : (k + 1, s) ∉ (List.map (fun p : Nat × TurnoutState => (p.1 + 1, p.2))
            (checkStaleGo th now rest).2) := by
          intro hmem2
          rcases List.mem_map.mp hmem2 with ⟨q, hq, hqe⟩
          have h1 : q.1 = k := by
            have : q.1 + 1 = k + 1 := congrArg Prod.fst hqe
            omega
          have hq' : (k, q.2) ∈ (checkStaleGo th now rest).2 := by
            rw [← h1]; exact hq
          exact (ih k t hk).2 hc q.2 hq'
        by_cases hu : staleCond th now u
        · simp only [checkStaleGo, hu, if_true] at hmem
          rcases List.mem_cons.mp hmem with h0 | hmem2
          · have : k + 1 = 0 := congrArg Prod.fst h0
            omega
          · exact hnot hmem2
        · simp only [checkStaleGo, hu, if_false] at hmem
          exact hnot hmem

/-- C9: `turnout_manager_check_stale` with `timeout_ms = 0` changes
nothing; with a nonzero timeout it re-marks exactly those turnouts in
state Normal or Reverse with a nonzero `last_update_us` older than the
timeout, firing one callback per marked turnout and none for the others;
a turnout whose state is not Normal or Reverse (Stale or Unknown) is
never touched by a sweep; and one matching state update via
`turnout_manager_set_state_by_event` takes a Stale turnout back to
Normal or Reverse. -/
theorem check_stale_spec (reg : Registry) (tm : Nat) (now : Int) :
    turnout_manager_check_stale reg 0 now = (reg, []) ∧
    (tm ≠ 0 →
      (turnout_manager_check_stale reg tm now).1 =
        reg.map (fun t => if staleCond ((tm : Int) * 1000) now t
          then { t with state := .stale } else t)) ∧
    (tm ≠ 0 → ∀ (j : Nat) (t : Turnout), reg[j]? = some t →
      (staleCond ((tm : Int) * 1000) now t = true →
        (turnout_manager_check_stale reg tm now).2.countP
          (fun p => decide (p = (j, TurnoutState.stale))) = 1) ∧
      (staleCond ((tm : Int) * 1000) now t = false →
        ∀ s, (j, s) ∉ (turnout_manager_check_stale reg tm now).2)) ∧
    (∀ (j : Nat) (t : Turnout), reg[j]? = some t →
      t.state ≠ .normal → t.state ≠ .reverse →
      (turnout_manager_check_stale reg tm now).1[j]? = some t) ∧
    (∀ (ev : Nat) (now2 : Int) (i : Nat) (t : Turnout), reg[i]? = some t →
      t.state = .stale → matchEvent ev t = true →
      (∀ (j : Nat) (u : Turnout), j < i → reg[j]? = some u → matchEvent ev u = false) →
      ∃ t2, (turnout_manager_set_state_by_event reg ev now2).1[i]? = some t2 ∧
        (t2.state = .normal ∨ t2.state = .reverse)) := by
  refine ⟨by simp [turnout_manager_check_stale], ?_, ?_, ?_, ?_⟩
  · intro htm
    simp only [turnout_manager_check_stale, htm, if_false]
    exact checkStaleGo_fst _ now reg
  · intro htm j t hj
    simp only [turnout_manager_check_stale, htm, if_false]
    exact checkStaleGo_snd_count _ now reg j t hj
  · intro j t hj hn hr
    have hcond : staleCond ((tm : Int) * 1000) now t = false := by
      have h1 : (t.state == TurnoutState.normal) = false := by
        cases hs : t.state <;> simp_all
      have h2 : (t.state == TurnoutState.reverse) = false := by
        cases hs : t.state <;> simp_all
      simp [staleCond, h1, h2]
    by_cases htm : tm = 0
    · subst htm; simp [turnout_manager_check_stale, hj]
    · simp only [turnout_manager_check_stale, htm, if_false]
      rw [checkStaleGo_fst]
      rw [List.getElem?_map, hj]
      simp [hcond]
  · intro ev now2 i t hget hstale hmatch hmin
    rcases sse_spec reg ev now2 with ⟨hall, _⟩ | ⟨i2, t2, hget2, hmatch2, hmin2, heq2⟩
    · have := hall t (List.getElem?_mem hget)
      rw [this] at hmatch; exact absurd hmatch (by simp)
    · have hii : i2 = i := by
        rcases Nat.lt_trichotomy i2 i with h | h | h
        · have := hmin i2 t2 h hget2
          rw [this] at hmatch2; exact absurd hmatch2 (by simp)
        · exact h
        · have := hmin2 i t h hget
          rw [this] at hmatch; exact absurd hmatch (by simp)
      subst hii
      have htt : t2 = t := by rw [hget] at hget2; exact (Option.some.inj hget2).symm
      subst htt
      rw [heq2]
      have hlen : i2 < reg.length := (List.getElem?_eq_some_iff.mp hget).1
      refine ⟨setStateUpd t2
        (if t2.event_normal = ev then TurnoutState.normal else TurnoutState.reverse) now2,
        by simp [List.getElem?_set_self, hlen], ?_⟩
      by_cases hn : t2.event_normal = ev
      · simp [setStateUpd, hn]
      · simp [setStateUpd, hn]

/-- Registry used by the C9 witness: one turnout in state Normal whose
last update is old. -/
def exStaleReg : Registry := [{ exT1 with state := .normal, last_update_us := 1 }]

/-- Witness for C9: with a 5 ms timeout at time 10^7 µs the single old
Normal turnout is marked Stale with exactly one callback; a timeout of 0
changes nothing; one matching state update takes it back out of Stale. -/
theorem check_stale_spec_witness :
    turnout_manager_check_stale exStaleReg 0 10000000 = (exStaleReg, []) ∧
    (turnout_manager_check_stale exStaleReg 5 10000000).1 =
      [{ exT1 with state := .stale, last_update_us := 1 }] ∧
    (turnout_manager_check_stale exStaleReg 5 10000000).2.countP
      (fun p => decide (p = (0, TurnoutState.stale))) = 1 ∧
    (∃ t2, (turnout_manager_set_state_by_event
        [{ exT1 with state := .stale, last_update_us := 1 }]
        0x0501010122600000 20000000).1[0]? = some t2 ∧
      (t2.state = .normal ∨ t2.state = .reverse)) := by
  have h := check_stale_spec exStaleReg 5 10000000
  refine ⟨h.1, ?_, ?_, ?_⟩
  · rw [h.2.1 (by decide)]; decide
  · exact ((h.2.2.1 (by decide)) 0 { exT1 with state := .normal, last_update_us := 1 }
      rfl).1 (by decide)
  · exact (check_stale_spec [{ exT1 with state := .stale, last_update_us := 1 }]
      5 10000000).2.2.2.2 0x0501010122600000 20000000 0
      { exT1 with state := .stale, last_update_us := 1 }
      rfl (by decide) (by decide) (by intro j u hj _; omega)

/-! Panel layout data model (panel_layout.h / panel_layout.c). -/

/-- Connection point type (`panel_point_type_t`). -/
inductive PointType
  | entry
  | normal
  | reverse
deriving DecidableEq, Repr

/-- Referenced element type (`panel_ref_type_t`). -/
inductive RefType
  | turnout
  | endpoint
deriving DecidableEq, Repr

/-- Typed reference to a connectable panel element (`panel_ref_t`). -/
structure PanelRef where
  type : RefType
  id : Nat
  point : PointType
deriving DecidableEq, Repr

/-- Track segment between two connection points (`panel_track_t`).  The C
fields `from` and `to` are Lean keywords-adjacent, hence `from_`/`to_`. -/
structure PanelTrack where
  from_ : PanelRef
  to_ : PanelRef
deriving DecidableEq, Repr

/-- Placed turnout (`panel_item_t`): grid position is `uint16`, rotation
index `uint8` (meaningful range 0-7). -/
structure PanelItem where
  turnout_id : Nat
  grid_x : Nat
  grid_y : Nat
  rotation : Nat
  mirrored : Bool
deriving DecidableEq, Repr

/-- Placed endpoint (`panel_endpoint_t`). -/
structure PanelEndpoint where
  id : Nat
  grid_x : Nat
  grid_y : Nat
deriving DecidableEq, Repr

/-- The layout aggregate (`panel_layout_t`); counts are list lengths. -/
structure PanelLayout where
  items : List PanelItem
  endpoints : List PanelEndpoint
  next_endpoint_id : Nat
  tracks : List PanelTrack
deriving DecidableEq, Repr

/-- Capacity constants from panel_layout.h. -/
def PANEL_MAX_ITEMS : Nat := 50

/-- Maximum endpoints (panel_layout.h). -/
def PANEL_MAX_ENDPOINTS : Nat := 20

/-- Maximum track segments (panel_layout.h). -/
def PANEL_MAX_TRACKS : Nat := 100

/-- Grid cell size in pixels (panel_layout.h). -/
def PANEL_GRID_SIZE : Nat := 20

/-- Cascade match test of `panel_layout_remove_item`
(panel_layout.c:236-239): a track is deleted when its `from` or `to`
reference has type Turnout and the removed item's turnout id. -/
def trackRefsTurnout (id : Nat) (tr : PanelTrack) : Bool :=
  (tr.from_.type == RefType.turnout && tr.from_.id == id) ||
  (tr.to_.type == RefType.turnout && tr.to_.id == id)

/-- Cascade match test of `panel_layout_remove_endpoint`
(panel_layout.c:267-270). -/
def trackRefsEndpoint (id : Nat) (tr : PanelTrack) : Bool :=
  (tr.from_.type == RefType.endpoint && tr.from_.id == id) ||
  (tr.to_.type == RefType.endpoint && tr.to_.id == id)

/-- Embedding of `panel_layout_remove_item` (panel_layout.c:221-250):
out-of-range index is a no-op; otherwise the item is removed by shifting
(=`eraseIdx`) and every track referencing (Turnout, removed id) is
deleted by the in-place compaction loop (=order-preserving `filter`). -/
def panel_layout_remove_item (l : PanelLayout) (index : Nat) : PanelLayout :=
  match l.items[index]? with
  | none => l
  | some it =>
    { l with items := l.items.eraseIdx index
             tracks := l.tracks.filter (fun tr => !(trackRefsTurnout it.turnout_id tr)) }

/-- Embedding of `panel_layout_remove_endpoint` (panel_layout.c:252-281). -/
def panel_layout_remove_endpoint (l : PanelLayout) (index : Nat) : PanelLayout :=
  match l.endpoints[index]? with
  | none => l
  | some ep =>
    { l with endpoints := l.endpoints.eraseIdx index
             tracks := l.tracks.filter (fun tr => !(trackRefsEndpoint ep.id tr)) }

/-- Embedding of `panel_layout_remove_track` (panel_layout.c:283-293). -/
def panel_layout_remove_track (l : PanelLayout) (index : Nat) : PanelLayout :=
  if index ≥ l.tracks.length then l
  else { l with tracks := l.tracks.eraseIdx index }

/-- Complementary count of a Boolean filter. -/
theorem countP_not_add_countP (p : α → Bool) (l : List α) :
    l.countP (fun a => !(p a)) + l.countP p = l.length := by
  induction l with
  | nil => rfl
  | cons a l ih =>
    by_cases h : p a
    · simp [List.countP_cons, h, ← ih]; omega
    · simp [List.countP_cons, h, ← ih]; omega

/-- C3: `panel_layout_remove_item` and `panel_layout_remove_endpoint`
remove the primary entity, then delete exactly those tracks whose `from`
or `to` reference matches the removed entity's (type, id): the track
count drops by the number of referencing tracks, the survivors keep
their relative order, no surviving track references the removed entity,
and the other layout fields are untouched; `panel_layout_remove_track`
removes exactly one track with no cascade. -/
theorem remove_cascade_spec (l : PanelLayout) (i : Nat) :
    (∀ it, l.items[i]? = some it →
      (panel_layout_remove_item l i).items = l.items.eraseIdx i ∧
      (panel_layout_remove_item l i).items.length = l.items.length - 1 ∧
      (panel_layout_remove_item l i).tracks =
        l.tracks.filter (fun tr => !(trackRefsTurnout it.turnout_id tr)) ∧
      (panel_layout_remove_item l i).tracks.length =
        l.tracks.length - l.tracks.countP (trackRefsTurnout it.turnout_id) ∧
      (panel_layout_remove_item l i).tracks.Sublist l.tracks ∧
      (∀ tr ∈ (panel_layout_remove_item l i).tracks,
        trackRefsTurnout it.turnout_id tr = false) ∧
      (panel_layout_remove_item l i).endpoints = l.endpoints ∧
      (panel_layout_remove_item l i).next_endpoint_id = l.next_endpoint_id) ∧
    (∀ ep, l.endpoints[i]? = some ep →
      (panel_layout_remove_endpoint l i).endpoints = l.endpoints.eraseIdx i ∧
      (panel_layout_remove_endpoint l i).endpoints.length = l.endpoints.length - 1 ∧
      (panel_layout_remove_endpoint l i).tracks =
        l.tracks.filter (fun tr => !(trackRefsEndpoint ep.id tr)) ∧
      (panel_layout_remove_endpoint l i).tracks.length =
        l.tracks.length - l.tracks.countP (trackRefsEndpoint ep.id) ∧
      (panel_layout_remove_endpoint l i).tracks.Sublist l.tracks ∧
      (∀ tr ∈ (panel_layout_remove_endpoint l i).tracks,
        trackRefsEndpoint ep.id tr = false) ∧
      (panel_layout_remove_endpoint l i).items = l.items ∧
      (panel_layout_remove_endpoint l i).next_endpoint_id = l.next_endpoint_id) ∧
    (i < l.tracks.length →
      (panel_layout_remove_track l i).tracks = l.tracks.eraseIdx i ∧
      (panel_layout_remove_track l i).tracks.length = l.tracks.length - 1 ∧
      (panel_layout_remove_track l i).items = l.items ∧
      (panel_layout_remove_track l i).endpoints = l.endpoints ∧
      (panel_layout_remove_track l i).next_endpoint_id = l.next_endpoint_id) := by
  refine ⟨?_, ?_, ?_⟩
  · intro it hit
    have hdef : panel_layout_remove_item l i =
        { l with items := l.items.eraseIdx i
                 tracks := l.tracks.filter
                   (fun tr => !(trackRefsTurnout it.turnout_id tr)) } := by
      simp [panel_layout_remove_item, hit]
    have hlen : i < l.items.length := (List.getElem?_eq_some_iff.mp hit).1
    refine ⟨by rw [hdef], ?_, by rw [hdef], ?_, ?_, ?_, by rw [hdef], by rw [hdef]⟩
    · rw [hdef]; simp [List.length_eraseIdx, hlen]
    · rw [hdef]
      rw [← List.countP_eq_length_filter]
      have := countP_not_add_countP (trackRefsTurnout it.turnout_id) l.tracks
      omega
    · rw [hdef]; exact List.filter_sublist _
    · intro tr htr
      rw [hdef] at htr
      have := (List.mem_filter.mp htr).2
      simpa using this
  · intro ep hep
    have hdef : panel_layout_remove_endpoint l i =
        { l with endpoints := l.endpoints.eraseIdx i
                 tracks := l.tracks.filter
                   (fun tr => !(trackRefsEndpoint ep.id tr)) } := by
      simp [panel_layout_remove_endpoint, hep]
    have hlen : i < l.endpoints.length := (List.getElem?_eq_some_iff.mp hep).1
    refine ⟨by rw [hdef], ?_, by rw [hdef], ?_, ?_, ?_, by rw [hdef], by rw [hdef]⟩
    · rw [hdef]; simp [List.length_eraseIdx, hlen]
    · rw [hdef]
      rw [← List.countP_eq_length_filter]
      have := countP_not_add_countP (trackRefsEndpoint ep.id) l.tracks
      omega
    · rw [hdef]; exact List.filter_sublist _
    · intro tr htr
      rw [hdef] at htr
      have := (List.mem_filter.mp htr).2
      simpa using this
  · intro hlt
    have hdef : panel_layout_remove_track l i =
        { l with tracks := l.tracks.eraseIdx i } := by
      simp [panel_layout_remove_track, Nat.not_le.mpr hlt]
    refine ⟨by rw [hdef], ?_, by rw [hdef], by rw [hdef], by rw [hdef]⟩
    rw [hdef]; simp [List.length_eraseIdx, hlt]

/-- Layout used by the C3 witness: one item (turnout 7), one endpoint
(id 3), one track touching the turnout and one touching the endpoint. -/
def exLayout : PanelLayout :=
  { items := [{ turnout_id := 7, grid_x := 1, grid_y := 2, rotation := 0, mirrored := false }]
    endpoints := [{ id := 3, grid_x := 4, grid_y := 5 }]
    next_endpoint_id := 4
    tracks := [{ from_ := ⟨RefType.turnout, 7, PointType.normal⟩
                 to_ := ⟨RefType.endpoint, 3, PointType.entry⟩ },
               { from_ := ⟨RefType.endpoint, 3, PointType.entry⟩
                 to_ := ⟨RefType.endpoint, 9, PointType.entry⟩ }] }

/-- Witness for C3: removing the item deletes the one track referencing
turnout 7 (leaving 1 of 2); removing the endpoint deletes both tracks
referencing endpoint 3; removing track 0 deletes exactly one track. -/
theorem remove_cascade_spec_witness :
    (panel_layout_remove_item exLayout 0).tracks.length = 1 ∧
    (panel_layout_remove_endpoint exLayout 0).tracks = [] ∧
    (panel_layout_remove_track exLayout 0).tracks.length = 1 := by
  have h := remove_cascade_spec exLayout 0
  refine ⟨?_, ?_, ?_⟩
  · rw [(h.1 _ rfl).2.2.2.1]; decide
  · rw [(h.2.1 _ rfl).2.2.1]; decide
  · rw [(h.2.2 (by decide)).2.1]; decide

/-! Geometry engine (panel_geometry.c). -/

/-- Wrap an unbounded integer to the `int16_t` value produced by the C
casts in panel_geometry.c. -/
def toInt16 (n : Int) : Int :=
  let m := n % 65536
  if m < 32768 then m else m - 65536

/-- Fixed-point rotation table scaled by 1024 (`s_rot_table`,
panel_geometry.c:46-55), one (cos, sin) pair per 45° step. -/
def s_rot_table : List (Int × Int) :=
  [(1024, 0), (724, 724), (0, 1024), (-724, 724),
   (-1024, 0), (-724, -724), (0, -1024), (724, -724)]

/-- Embedding of `rotate_offset` (panel_geometry.c:69-76):
x' = (x·cos − y·sin)/1024, y' = (x·sin + y·cos)/1024 in `int32_t`
arithmetic (exact at these magnitudes), division truncating toward zero,
results cast to `int16_t`; the rotation index is masked by `& 0x07`. -/
def rotate_offset (dx dy : Int) (rot : Nat) : Int × Int :=
  let r := s_rot_table.getD (rot % 8) (0, 0)
  (toInt16 (Int.tdiv (dx * r.1 - dy * r.2) 1024),
   toInt16 (Int.tdiv (dx * r.2 + dy * r.1) 1024))

/-- Embedding of `transform_point` (panel_geometry.c:81-98): mirror flips
the local Y offset, then rotate, then translate by the origin, the final
sums again stored into `int16_t`. -/
def transform_point (ldx ldy : Int) (item : PanelItem) (ox oy : Int) : Int × Int :=
  let dy := if item.mirrored then -ldy else ldy
  let r := rotate_offset ldx dy item.rotation
  (toInt16 (ox + r.1), toInt16 (oy + r.2))

/-- Embedding of `panel_geometry_get_points` (panel_geometry.c:104-138):
entry at the grid origin, normal at local (+60, 0), reverse at local
(+40, −40), each transformed. -/
def panel_geometry_get_points (item : PanelItem) :
    (Int × Int) × (Int × Int) × (Int × Int) :=
  let ox := toInt16 ((item.grid_x : Int) * (PANEL_GRID_SIZE : Int))
  let oy := toInt16 ((item.grid_y : Int) * (PANEL_GRID_SIZE : Int))
  ((ox, oy),
   transform_point 60 0 item ox oy,
   transform_point 40 (-40) item ox oy)

/-- Modelled from the spec's words (section 4.3) for comparison with the
code: the same mirror → fixed-point rotate → translate pipeline in
unbounded integer arithmetic, with no `int16_t` casts. -/
def spec_points (item : PanelItem) : (Int × Int) × (Int × Int) × (Int × Int) :=
  let ox := (item.grid_x : Int) * 20
  let oy := (item.grid_y : Int) * 20
  let f := fun (ldx ldy : Int) =>
    let dy := if item.mirrored then -ldy else ldy
    let r := s_rot_table.getD (item.rotation % 8) (0, 0)
    (ox + Int.tdiv (ldx * r.1 - dy * r.2) 1024,
     oy + Int.tdiv (ldx * r.2 + dy * r.1) 1024)
  ((ox, oy), f 60 0, f 40 (-40))

/-- Values in the int16 range are fixed by the wrap. -/
theorem toInt16_eq_self {n : Int} (h1 : -32768 ≤ n) (h2 : n ≤ 32767) :
    toInt16 n = n := by
  simp only [toInt16]
  split <;> omega

/-- For the turnout symbol's local offsets the rotated offset is the
truncating fixed-point formula with no wrap, and is bounded by 104 in
each axis. -/
theorem rotate_offset_bounded (dx dy : Int) (rot : Nat)
    (hdx : dx = 60 ∨ dx = 40) (hdy : dy = 0 ∨ dy = 40 ∨ dy = -40) :
    rotate_offset dx dy rot =
      (Int.tdiv (dx * (s_rot_table.getD (rot % 8) (0, 0)).1 -
                dy * (s_rot_table.getD (rot % 8) (0, 0)).2) 1024,
       Int.tdiv (dx * (s_rot_table.getD (rot % 8) (0, 0)).2 +
                dy * (s_rot_table.getD (rot % 8) (0, 0)).1) 1024) ∧
    -104 ≤ (rotate_offset dx dy rot).1 ∧ (rotate_offset dx dy rot).1 ≤ 104 ∧
    -104 ≤ (rotate_offset dx dy rot).2 ∧ (rotate_offset dx dy rot).2 ≤ 104 := by
  have hrot : rot % 8 = 0 ∨ rot % 8 = 1 ∨ rot % 8 = 2 ∨ rot % 8 = 3 ∨
      rot % 8 = 4 ∨ rot % 8 = 5 ∨ rot % 8 = 6 ∨ rot % 8 = 7 := by omega
  rcases hdx with h1 | h1 <;> rcases hdy with h2 | h2 | h2 <;> subst h1 <;> subst h2 <;>
    rcases hrot with h | h | h | h | h | h | h | h <;>
    simp only [rotate_offset, h] <;> decide

/-- Counterexample for C6 as literally stated: for grid_x = 10000 (a
representable `uint16` grid position), rotation 0, unmirrored, the entry
point produced by the code is the `int16_t`-wrapped 3392, not
gx·20 = 200000. -/
theorem geometry_entry_wraps_counterexample :
    (panel_geometry_get_points
      { turnout_id := 0, grid_x := 10000, grid_y := 0, rotation := 0,
        mirrored := false }).1 ≠ ((10000 : Int) * 20, (0 : Int) * 20) ∧
    (panel_geometry_get_points
      { turnout_id := 0, grid_x := 10000, grid_y := 0, rotation := 0,
        mirrored := false }).1 = (3392, 0) := by
  refine ⟨by decide, by decide⟩

/-- C6 (amended): whenever the item's world coordinates fit the
`int16_t` coordinate type (gx·20 ≤ 32660 and gy·20 ≤ 32660), the code
computes exactly the pure fixed-point pipeline of the spec — mirror
negates the local Y offset, rotation uses the 8-entry 1024-scaled table
with truncating integer division, then translation by (gx·20, gy·20) —
and in particular for rotation 0, unmirrored: Entry = (gx·20, gy·20),
Normal = (gx·20+60, gy·20), Reverse = (gx·20+40, gy·20−40). -/
theorem geometry_points_spec (item : PanelItem)
    (hx : (item.grid_x : Int) * 20 ≤ 32660)
    (hy : (item.grid_y : Int) * 20 ≤ 32660) :
    panel_geometry_get_points item = spec_points item ∧
    (item.rotation = 0 → item.mirrored = false →
      panel_geometry_get_points item =
        (((item.grid_x : Int) * 20, (item.grid_y : Int) * 20),
         ((item.grid_x : Int) * 20 + 60, (item.grid_y : Int) * 20),
         ((item.grid_x : Int) * 20 + 40, (item.grid_y : Int) * 20 - 40))) := by
  have h0x : (0 : Int) ≤ (item.grid_x : Int) * 20 := by positivity
  have h0y : (0 : Int) ≤ (item.grid_y : Int) * 20 := by positivity
  have hox : toInt16 ((item.grid_x : Int) * 20) = (item.grid_x : Int) * 20 :=
    toInt16_eq_self (by omega) (by omega)
  have hoy : toInt16 ((item.grid_y : Int) * 20) = (item.grid_y : Int) * 20 :=
    toInt16_eq_self (by omega) (by omega)
  have htp : ∀ ldx ldy : Int, (ldx = 60 ∨ ldx = 40) → (ldy = 0 ∨ ldy = -40) →
      transform_point ldx ldy item ((item.grid_x : Int) * 20) ((item.grid_y : Int) * 20) =
        ((item.grid_x : Int) * 20 +
          (rotate_offset ldx (if item.mirrored then -ldy else ldy) item.rotation).1,
         (item.grid_y : Int) * 20 +
          (rotate_offset ldx (if item.mirrored then -ldy else ldy) item.rotation).2) := by
    intro ldx ldy hdx hdy
    have hdy2 : (if item.mirrored then -ldy else ldy) = 0 ∨
        (if item.mirrored then -ldy else ldy) = 40 ∨
        (if item.mirrored then -ldy else ldy) = -40 := by
      rcases hdy with h | h <;> subst h <;> cases item.mirrored <;> simp
    obtain ⟨-, hb1, hb2, hb3, hb4⟩ :=
      rotate_offset_bounded ldx (if item.mirrored then -ldy else ldy) item.rotation hdx hdy2
    simp only [transform_point]
    rw [toInt16_eq_self (by omega) (by omega), toInt16_eq_self (by omega) (by omega)]
  have hmain : panel_geometry_get_points item = spec_points item := by
    have hn := htp 60 0 (Or.inl rfl) (Or.inl rfl)
    have hr := htp 40 (-40) (Or.inr rfl) (Or.inr rfl)
    have hdyn : (if item.mirrored then -(0:Int) else 0) = 0 ∨
        (if item.mirrored then -(0:Int) else 0) = 40 ∨
        (if item.mirrored then -(0:Int) else 0) = -40 := by
      cases item.mirrored <;> simp
    have hdyr : (if item.mirrored then -(-40:Int) else -40) = 0 ∨
        (if item.mirrored then -(-40:Int) else -40) = 40 ∨
        (if item.mirrored then -(-40:Int) else -40) = -40 := by
      cases item.mirrored <;> simp
    obtain ⟨hrn, -⟩ := rotate_offset_bounded 60
      (if item.mirrored then -(0:Int) else 0) item.rotation (Or.inl rfl) hdyn
    obtain ⟨hrr, -⟩ := rotate_offset_bounded 40
      (if item.mirrored then -(-40:Int) else -40) item.rotation (Or.inr rfl) hdyr
    simp only [panel_geometry_get_points, spec_points, PANEL_GRID_SIZE, hox, hoy,
      Nat.cast_ofNat, hn, hr, hrn, hrr]
  refine ⟨hmain, ?_⟩
  intro hrot hmir
  rw [hmain]
  simp only [spec_points, hrot, hmir, if_false, Nat.zero_mod, Bool.false_eq_true]
  norm_num [s_rot_table]
  refine ⟨by decide, by decide, ?_⟩
  have h40 : Int.tdiv 40960 1024 = 40 := by decide
  rw [h40]
  ring

/-- Witness for C6 (amended): a concrete item at grid (3, 4), rotation 2
(90°), mirrored — the code and the pure pipeline agree — and the
rotation-0 instance at grid (1, 2). -/
theorem geometry_points_spec_witness :
    panel_geometry_get_points
        { turnout_id := 1, grid_x := 3, grid_y := 4, rotation := 2, mirrored := true } =
      spec_points
        { turnout_id := 1, grid_x := 3, grid_y := 4, rotation := 2, mirrored := true } ∧
    panel_geometry_get_points
        { turnout_id := 1, grid_x := 1, grid_y := 2, rotation := 0, mirrored := false } =
      ((20, 40), (80, 40), (60, 0)) := by
  constructor
  · exact (geometry_points_spec _ (by decide) (by decide)).1
  · have h := (geometry_points_spec
      { turnout_id := 1, grid_x := 1, grid_y := 2, rotation := 0, mirrored := false }
      (by decide) (by decide)).2 rfl rfl
    rw [h]; decide

/-! Persistence stores: file-system effect of the save paths
(turnout_storage.c, panel_storage.c). -/

/-- Save outcome (the `esp_err_t` values the save paths can return,
collapsed to success/failure). -/
inductive SaveResult
  | ok
  | fail
deriving DecidableEq, Repr

/-- On-disk state of one store: content of the target path and of the
temporary path (`<target>.tmp`); `none` means the file is absent. -/
structure StoreFS where
  target : Option String
  temp : Option String
deriving DecidableEq, Repr

/-- Outcome of the I/O calls a save performs: whether `fopen(..., "w")`
succeeds (for the panel store, within its 3 retries), whether `fwrite`
writes the complete buffer, and whether `rename` succeeds. -/
structure IoOutcome where
  openOk : Bool
  writeOk : Bool
  renameOk : Bool
deriving DecidableEq, Repr

/-- File-system effect of `turnout_storage_save`
(turnout_storage.c:230-249): the roster store opens the TARGET path
directly with mode "w" — no temporary file, no rename.  A successful
`fopen` truncates the target; a short `fwrite` leaves the written
prefix `shortData` in the target and returns failure; a complete write
returns success.  (`renameOk` is unused: there is no rename.) -/
def turnout_storage_save_fs (fs : StoreFS) (content shortData : String)
    (io : IoOutcome) : StoreFS × SaveResult :=
  if !io.openOk then (fs, .fail)
  else if io.writeOk then ({ fs with target := some content }, .ok)
  else ({ fs with target := some shortData }, .fail)

/-- File-system effect of `panel_storage_save`
(panel_storage.c:345-390): serializes into `<target>.tmp` (open with
retries), on a short write removes the temp and fails, otherwise
`remove`s the old target and then renames the temp over it; on a rename
failure the target has already been removed and the temp is left
behind.  (`shortData` is unused: the short-written temp is removed.) -/
def panel_storage_save_fs (fs : StoreFS) (content shortData : String)
    (io : IoOutcome) : StoreFS × SaveResult :=
  if !io.openOk then (fs, .fail)
  else if !io.writeOk then ({ fs with temp := none }, .fail)
  else if io.renameOk then ({ target := some content, temp := none }, .ok)
  else ({ target := none, temp := some content }, .fail)

/-- Counterexample for C2 as stated: the roster store has no temporary
path at all, so with a previous on-disk version "old" present, a
successful `fopen` followed by a short `fwrite` destroys the previous
version — the save fails yet the target no longer holds "old" (it was
truncated at open and holds the partial data). -/
theorem save_not_atomic_counterexample :
    (turnout_storage_save_fs ⟨some "old", none⟩ "new" "ne"
      ⟨true, false, true⟩).2 = SaveResult.fail ∧
    (turnout_storage_save_fs ⟨some "old", none⟩ "new" "ne"
      ⟨true, false, true⟩).1.target ≠ some "old" := by
  exact ⟨rfl, by decide⟩

/-- C2 (amended): only the panel layout store saves via a temporary
path.  For the panel store: failure to open leaves the file system
untouched; a short write removes the temp, fails, and leaves the
previous target version intact; a complete write removes the old target
and renames the temp over it, so success installs the new content with
no temp left, while a rename failure leaves the target absent with the
fully-written temp file behind (not removed).  The roster store writes
the target path directly: success installs the new content; a write
failure after open leaves the target truncated/half-written. -/
theorem save_fs_behaviour (fs : StoreFS) (content shortData : String)
    (io : IoOutcome) :
    (io.openOk = false →
      panel_storage_save_fs fs content shortData io = (fs, .fail) ∧
      turnout_storage_save_fs fs content shortData io = (fs, .fail)) ∧
    (∀ prev, fs.target = some prev → io.openOk = true → io.writeOk = false →
      (panel_storage_save_fs fs content shortData io).1.target = some prev ∧
      (panel_storage_save_fs fs content shortData io).1.temp = none ∧
      (panel_storage_save_fs fs content shortData io).2 = .fail) ∧
    (io.openOk = true → io.writeOk = true → io.renameOk = true →
      panel_storage_save_fs fs content shortData io =
        ({ target := some content, temp := none }, .ok)) ∧
    (io.openOk = true → io.writeOk = true → io.renameOk = false →
      panel_storage_save_fs fs content shortData io =
        ({ target := none, temp := some content }, .fail)) ∧
    (io.openOk = true → io.writeOk = true →
      turnout_storage_save_fs fs content shortData io =
        ({ fs with target := some content }, .ok)) ∧
    (io.openOk = true → io.writeOk = false →
      turnout_storage_save_fs fs content shortData io =
        ({ fs with target := some shortData }, .fail)) := by
  refine ⟨?_, ?_, ?_, ?_, ?_, ?_⟩
  · intro h; constructor <;>
      simp [panel_storage_save_fs, turnout_storage_save_fs, h]
  · intro prev hprev h1 h2
    refine ⟨?_, ?_, ?_⟩ <;> simp [panel_storage_save_fs, h1, h2, hprev]
  · intro h1 h2 h3; simp [panel_storage_save_fs, h1, h2, h3]
  · intro h1 h2 h3; simp [panel_storage_save_fs, h1, h2, h3]
  · intro h1 h2; simp [turnout_storage_save_fs, h1, h2]
  · intro h1 h2; simp [turnout_storage_save_fs, h1, h2]

/-- Witness for C2 (amended) at concrete states: a fully successful
panel save installs the new content and removes the temp; a panel save
with a short write keeps the old target; a successful roster save
installs the new content over the old. -/
theorem save_fs_behaviour_witness :
    panel_storage_save_fs ⟨some "old", none⟩ "new" "ne" ⟨true, true, true⟩ =
      ({ target := some "new", temp := none }, .ok) ∧
    (panel_storage_save_fs ⟨some "old", none⟩ "new" "ne"
      ⟨true, false, true⟩).1.target = some "old" ∧
    turnout_storage_save_fs ⟨some "old", none⟩ "new" "ne" ⟨true, true, true⟩ =
      ({ target := some "new", temp := none }, .ok) := by
  have h := save_fs_behaviour ⟨some "old", none⟩ "new" "ne" ⟨true, true, true⟩
  have h2 := save_fs_behaviour ⟨some "old", none⟩ "new" "ne" ⟨true, false, true⟩
  exact ⟨h.2.2.1 rfl rfl rfl, (h2.2.1 "old" rfl rfl rfl).1,
    h.2.2.2.2.1 rfl rfl⟩

/-! Event id formatting and parsing (turnout_storage.c:41-89).  C strings
are modelled as Lean `String`/`List Char`. -/

/-- Hex digit test of `sscanf %x` / `strtoull` (accepts both cases). -/
def isHexDigitChar (c : Char) : Bool :=
  (48 ≤ c.toNat && c.toNat ≤ 57) ||
  (97 ≤ c.toNat && c.toNat ≤ 102) ||
  (65 ≤ c.toNat && c.toNat ≤ 70)

/-- Numeric value of a hex digit character. -/
def hexVal (c : Char) : Nat :=
  if 97 ≤ c.toNat then c.toNat - 87
  else if 65 ≤ c.toNat then c.toNat - 55
  else c.toNat - 48

/-- Uppercase hex digit character, as printed by `snprintf %02X`. -/
def hexDigitChar (n : Nat) : Char :=
  if n < 10 then Char.ofNat (48 + n) else Char.ofNat (55 + n)

/-- Two uppercase hex digits of a byte (`%02X`). -/
def byteHexChars (b : Nat) : List Char :=
  [hexDigitChar (b / 16), hexDigitChar (b % 16)]

/-- Byte k (0 = most significant) of a 64-bit event id:
`(event_id >> (8*(7-k))) & 0xFF`. -/
def eventByte (id k : Nat) : Nat := id / 2 ^ (8 * (7 - k)) % 256

/-- Dot separator followed by one formatted byte. -/
def dotThen (b : Nat) (rest : List Char) : List Char :=
  '.' :: (byteHexChars b ++ rest)

/-- Embedding of `format_event_id` (turnout_storage.c:41-52): 8 bytes as
2-digit uppercase hex, separated by dots. -/
def format_event_id (id : Nat) : String :=
  ⟨byteHexChars (eventByte id 0) ++
    dotThen (eventByte id 1) (dotThen (eventByte id 2) (dotThen (eventByte id 3)
      (dotThen (eventByte id 4) (dotThen (eventByte id 5) (dotThen (eventByte id 6)
        (dotThen (eventByte id 7) []))))))⟩

/-- One `%02x` conversion of the `sscanf` in `parse_event_id`: consumes
one or (greedily) two hex digits. -/
def readHexByte : List Char → Option (Nat × List Char)
  | [] => none
  | c :: cs =>
    if !isHexDigitChar c then none
    else match cs with
      | d :: rest =>
        if isHexDigitChar d then some (hexVal c * 16 + hexVal d, rest)
        else some (hexVal c, cs)
      | [] => some (hexVal c, [])

/-- Literal `.` match of the `sscanf` format string. -/
def expectDot : List Char → Option (List Char)
  | '.' :: cs => some cs
  | _ => none

/-- Remaining 7 `.%02x` conversions after the first byte. -/
def parseDotTail : Nat → Nat → List Char → Option Nat
  | acc, 0, _ => some acc
  | acc, n + 1, cs =>
    match expectDot cs with
    | none => none
    | some cs2 =>
      match readHexByte cs2 with
      | none => none
      | some (b, cs3) => parseDotTail (acc * 256 + b) n cs3

/-- The dotted-hex branch of `parse_event_id` (the `sscanf` with 8 `%02x`
groups; as with `sscanf`, trailing characters after the 8th group are
ignored). -/
def parseDotted (cs : List Char) : Option Nat :=
  match readHexByte cs with
  | none => none
  | some (b, cs2) => parseDotTail b 7 cs2

/-- The `strtoull(str, &endptr, 16)` fallback of `parse_event_id`,
succeeding when the whole string is plain hex digits (the forms the
stored files use); the value saturates at `ULLONG_MAX` on overflow as
`strtoull` does. -/
def parsePlainHex (cs : List Char) : Option Nat :=
  if cs ≠ [] ∧ cs.all isHexDigitChar then
    some (min (cs.foldl (fun a c => a * 16 + hexVal c) 0) (2 ^ 64 - 1))
  else none

/-- Embedding of `parse_event_id` (turnout_storage.c:61-89): dotted hex
first, then plain hex. -/
def parse_event_id (s : String) : Option Nat :=
  match parseDotted s.data with
  | some v => some v
  | none => parsePlainHex s.data

/-- Reading back a `%02X`-formatted byte consumes exactly its two digits. -/
theorem readHexByte_byteHexChars (b : Nat) (hb : b < 256) (rest : List Char) :
    readHexByte (byteHexChars b ++ rest) = some (b, rest) := by
  have hd : ∀ d : Nat, d < 16 →
      isHexDigitChar (hexDigitChar d) = true ∧ hexVal (hexDigitChar d) = d := by decide
  have h1 := hd (b / 16) (by omega)
  have h2 := hd (b % 16) (by omega)
  simp only [byteHexChars, List.cons_append, List.nil_append, readHexByte,
    h1.1, h2.1, Bool.not_true, Bool.false_eq_true, if_false, if_true, h1.2, h2.2]
  congr 1
  congr 1
  omega

/-- Parsing inverts formatting for every 64-bit event id. -/
theorem parse_format_event_id (id : Nat) (h : id < 2 ^ 64) :
    parse_event_id (format_event_id id) = some id := by
  have hb : ∀ k, eventByte id k < 256 := fun k => Nat.mod_lt _ (by norm_num)
  have step : ∀ (n b acc : Nat) (rest : List Char), b < 256 →
      parseDotTail acc (n + 1) (dotThen b rest) =
        parseDotTail (acc * 256 + b) n rest := by
    intro n b acc rest hb2
    simp [dotThen, parseDotTail, expectDot, readHexByte_byteHexChars b hb2 rest]
  have hdata : (format_event_id id).data =
      byteHexChars (eventByte id 0) ++
        dotThen (eventByte id 1) (dotThen (eventByte id 2) (dotThen (eventByte id 3)
          (dotThen (eventByte id 4) (dotThen (eventByte id 5) (dotThen (eventByte id 6)
            (dotThen (eventByte id 7) [])))))) := rfl
  simp only [parse_event_id, hdata, parseDotted, readHexByte_byteHexChars _ (hb 0)]
  rw [step _ _ _ _ (hb 1), step _ _ _ _ (hb 2), step _ _ _ _ (hb 3),
    step _ _ _ _ (hb 4), step _ _ _ _ (hb 5), step _ _ _ _ (hb 6),
    step _ _ _ _ (hb 7)]
  simp only [parseDotTail]
  congr 1
  simp only [eventByte]
  omega

/-! Decimal formatting (`snprintf %u`) and parsing (`atoi`) for track
reference strings (panel_storage.c:221-246, 320-343). -/

/-- Decimal digit test of `atoi`. -/
def isDigitChar (c : Char) : Bool := 48 ≤ c.toNat && c.toNat ≤ 57

/-- Decimal digit character. -/
def decDigitChar (n : Nat) : Char := Char.ofNat (48 + n)

/-- Decimal digits of a number, as printed by `%u`. -/
def decChars (n : Nat) : List Char :=
  if h : n < 10 then [decDigitChar n]
  else decChars (n / 10) ++ [decDigitChar (n % 10)]
decreasing_by exact Nat.div_lt_self (by omega) (by omega)

/-- Digit-consuming loop of `atoi` (stops at the first non-digit). -/
def atoiNatGo (acc : Nat) : List Char → Nat
  | [] => acc
  | c :: cs => if isDigitChar c then atoiNatGo (acc * 10 + (c.toNat - 48)) cs else acc

/-- Embedding of the `atoi` calls on the digits after the `turnout:` /
`endpoint:` tag (nonnegative canonical inputs). -/
def atoiNat (cs : List Char) : Nat := atoiNatGo 0 cs

/-- Every character `%u` prints is a digit. -/
theorem decChars_all_digits (n : Nat) : ∀ c ∈ decChars n, isDigitChar c = true := by
  have hdig : ∀ k, k < 10 → isDigitChar (decDigitChar k) = true := by decide
  induction n using Nat.strong_induction_on with
  | _ n ih =>
    intro c hc
    by_cases h : n < 10
    · rw [decChars, dif_pos h] at hc
      simp only [List.mem_singleton] at hc
      subst hc
      exact hdig n h
    · rw [decChars, dif_neg h] at hc
      rcases List.mem_append.mp hc with h1 | h1
      · exact ih (n / 10) (Nat.div_lt_self (by omega) (by omega)) c h1
      · simp only [List.mem_singleton] at h1
        subst h1
        exact hdig (n % 10) (Nat.mod_lt _ (by omega))

/-- `atoiNatGo` over a run of digits followed by anything. -/
theorem atoiNatGo_append (acc : Nat) (xs ys : List Char)
    (hx : ∀ c ∈ xs, isDigitChar c = true) :
    atoiNatGo acc (xs ++ ys) = atoiNatGo (atoiNatGo acc xs) ys := by
  induction xs generalizing acc with
  | nil => rfl
  | cons c cs ih =>
    have hc := hx c (by simp)
    simp only [List.cons_append, atoiNatGo, hc, if_true]
    exact ih _ (fun d hd => hx d (by simp [hd]))

/-- `atoi` inverts `%u` printing. -/
theorem atoiNat_decChars (n : Nat) : atoiNat (decChars n) = n := by
  have hval : ∀ k, k < 10 → (decDigitChar k).toNat - 48 = k ∧
      isDigitChar (decDigitChar k) = true := by decide
  have key : ∀ m acc, atoiNatGo acc (decChars m) = acc * 10 ^ (decChars m).length + m := by
    intro m
    induction m using Nat.strong_induction_on with
    | _ m ih =>
      intro acc
      by_cases h : m < 10
      · rw [decChars, dif_pos h]
        simp only [atoiNatGo, (hval m h).2, if_true, List.length_singleton]
        have := (hval m h).1
        omega
      · rw [decChars, dif_neg h]
        rw [atoiNatGo_append _ _ _ (decChars_all_digits (m / 10))]
        rw [ih (m / 10) (Nat.div_lt_self (by omega) (by omega)) acc]
        have h10 : m % 10 < 10 := Nat.mod_lt _ (by omega)
        simp only [atoiNatGo, (hval (m % 10) h10).2, if_true, List.length_append,
          List.length_singleton]
        rw [(hval (m % 10) h10).1, pow_succ]
        have hrw : acc * (10 ^ (decChars (m / 10)).length * 10) =
            acc * 10 ^ (decChars (m / 10)).length * 10 := by ring
        rw [hrw]
        generalize acc * 10 ^ (decChars (m / 10)).length = A
        omega
  have := key n 0
  simpa [atoiNat] using this

/-! JSON object model (the cJSON values these files contain).  A file's
bytes are equivalent to a parsed tree: `cJSON_Print` renders a tree
injectively and `cJSON_Parse` recovers it, so serialization is modelled
at tree level; numbers in these files are integers. -/

/-- JSON tree. -/
inductive Json
  | null
  | bool (b : Bool)
  | num (n : Int)
  | str (s : String)
  | arr (xs : List Json)
  | obj (fields : List (String × Json))

/-- Field lookup (`cJSON_GetObjectItem`): first field with the name. -/
def Json.get? : Json → String → Option Json
  | .obj fields, key => (fields.find? (fun f => f.1 == key)).map (fun f => f.2)
  | _, _ => none

/-- cJSON `valueint`: the double-stored number clamped to `int` range. -/
def valueint (n : Int) : Int := max (-2147483648) (min 2147483647 n)

/-- C cast of an `int` to `uint16_t` (wraps). -/
def uint16OfInt (i : Int) : Nat := (i % 65536).toNat

/-- C cast of an `int` to `uint32_t` (wraps). -/
def uint32OfInt (i : Int) : Nat := (i % 4294967296).toNat

/-- Bounded C-string copy (`strncpy(dst, src, n)` into an `n+1` buffer). -/
def takeCStr (n : Nat) (s : String) : String := ⟨s.data.take n⟩

/-- Content of a stored file as the load paths см it: absent, present
but not valid JSON, or a parsed tree. -/
inductive FileContent
  | missing
  | malformed
  | parsed (j : Json)

/-- Outcomes of `turnout_storage_load` (`esp_err_t` values it returns). -/
inductive LoadResult
  | ok
  | notFound
  | fail
deriving DecidableEq, Repr

/-- Per-entry body of the turnout load loop (turnout_storage.c:139-183):
`count` is the number of entries loaded so far (used for the default
name and default order); returns `none` when the entry is skipped (a
missing/non-string or unparsable event id). -/
def loadTurnoutEntry (j : Json) (count : Nat) : Option Turnout :=
  let name := match j.get? "name" with
    | some (.str s) => takeCStr 31 s
    | _ => "Turnout " ++ toString (count + 1)
  match j.get? "event_normal" with
  | some (.str sN) =>
    match parse_event_id sN with
    | some evN =>
      match j.get? "event_reverse" with
      | some (.str sR) =>
        match parse_event_id sR with
        | some evR =>
          let order : Nat := match j.get? "order" with
            | some (.num n) => uint16OfInt (valueint n)
            | _ => count
          some { id := 0, name := name, event_normal := evN, event_reverse := evR,
                 state := .unknown, last_update_us := 0, command_pending := false,
                 user_order := order }
        | none => none
      | _ => none
    | none => none
  | _ => none

/-- Entry loop of `turnout_storage_load`: stops at `max_count`, skips
invalid entries without advancing the loaded count. -/
def loadTurnoutsGo : List Json → Nat → Nat → List Turnout
  | [], _, _ => []
  | j :: rest, count, max_count =>
    if count ≥ max_count then []
    else match loadTurnoutEntry j count with
      | some t => t :: loadTurnoutsGo rest (count + 1) max_count
      | none => loadTurnoutsGo rest count max_count

/-- Embedding of `turnout_storage_load` (turnout_storage.c:95-189).
Note: the version field is never inspected — parsing is keyed only on
the `turnouts` array. -/
def turnout_storage_load (file : FileContent) (max_count : Nat) :
    List Turnout × LoadResult :=
  match file with
  | .missing => ([], .notFound)
  | .malformed => ([], .fail)
  | .parsed j =>
    match j.get? "turnouts" with
    | some (.arr entries) => (loadTurnoutsGo entries 0 max_count, .ok)
    | _ => ([], .fail)

/-- One serialized turnout (turnout_storage.c:207-224). -/
def turnoutToJson (t : Turnout) : Json :=
  .obj [("name", .str t.name),
        ("event_normal", .str (format_event_id t.event_normal)),
        ("event_reverse", .str (format_event_id t.event_reverse)),
        ("order", .num (t.user_order : Int))]

/-- Serialized roster produced by `turnout_storage_save`
(turnout_storage.c:191-228): version 1 plus the turnout array. -/
def turnout_storage_save_json (ts : List Turnout) : Json :=
  .obj [("version", .num 1), ("turnouts", .arr (ts.map turnoutToJson))]

/-- Well-formedness of an in-memory turnout as the C type invariants
give it: the name fits its 32-byte buffer, event ids are 64-bit, the
user order is 16-bit. -/
def TurnoutWF (t : Turnout) : Prop :=
  t.name.data.length ≤ 31 ∧ t.event_normal < 2 ^ 64 ∧
  t.event_reverse < 2 ^ 64 ∧ t.user_order < 65536

/-- The canonical turnout produced by re-loading a saved entry: runtime
fields reset, persisted fields kept. -/
def reloadTurnout (t : Turnout) : Turnout :=
  { id := 0, name := t.name, event_normal := t.event_normal,
    event_reverse := t.event_reverse, state := .unknown, last_update_us := 0,
    command_pending := false, user_order := t.user_order }

/-- Reloading one saved entry recovers its persisted fields. -/
theorem loadTurnoutEntry_turnoutToJson (t : Turnout) (count : Nat) (hwf : TurnoutWF t) :
    loadTurnoutEntry (turnoutToJson t) count = some (reloadTurnout t) := by
  obtain ⟨hname, hn, hr, ho⟩ := hwf
  have g1 : (turnoutToJson t).get? "name" = some (.str t.name) := rfl
  have g2 : (turnoutToJson t).get? "event_normal" =
      some (.str (format_event_id t.event_normal)) := rfl
  have g3 : (turnoutToJson t).get? "event_reverse" =
      some (.str (format_event_id t.event_reverse)) := rfl
  have g4 : (turnoutToJson t).get? "order" = some (.num (t.user_order : Int)) := rfl
  have hnm : t.name.data.take 31 = t.name.data := List.take_of_length_le hname
  have hord : uint16OfInt (valueint (t.user_order : Int)) = t.user_order := by
    simp only [uint16OfInt, valueint]
    omega
  simp only [loadTurnoutEntry, g1, g2, g3, g4,
    parse_format_event_id t.event_normal hn, parse_format_event_id t.event_reverse hr,
    takeCStr]
  simp [reloadTurnout, hnm, hord]

/-- Loading the serialized roster recovers every entry in order. -/
theorem loadTurnoutsGo_map (ts : List Turnout) (count max_count : Nat)
    (hwf : ∀ t ∈ ts, TurnoutWF t) (hcap : count + ts.length ≤ max_count) :
    loadTurnoutsGo (ts.map turnoutToJson) count max_count = ts.map reloadTurnout := by
  induction ts generalizing count with
  | nil => rfl
  | cons t rest ih =>
    have hlt : ¬ count ≥ max_count := by simp only [List.length_cons] at hcap; omega
    simp only [List.map_cons, loadTurnoutsGo, if_neg hlt,
      loadTurnoutEntry_turnoutToJson t count (hwf t (by simp))]
    rw [ih (count + 1) (fun u hu => hwf u (by simp [hu]))
      (by simp only [List.length_cons] at hcap; omega)]

/-! Panel store serialization (panel_storage.c). -/

/-- Embedding of `point_type_to_str` (panel_storage.c:60-68). -/
def pointTypeToStr : PointType → String
  | .entry => "entry"
  | .normal => "normal"
  | .reverse => "reverse"

/-- Embedding of `str_to_point_type` (panel_storage.c:70-76). -/
def strToPointType (s : String) : PointType :=
  if s == "normal" then .normal
  else if s == "reverse" then .reverse
  else .entry

/-- `strncmp(s, tag, n) == 0` with `n = tag.length` (tag match test). -/
def strStartsWith : List Char → List Char → Bool
  | [], _ => true
  | _ :: _, [] => false
  | p :: ps, c :: cs => p == c && strStartsWith ps cs

/-- Track reference rendering (`snprintf "endpoint:%u" / "turnout:%u"`,
panel_storage.c:326-339). -/
def refToStr (r : PanelRef) : String :=
  match r.type with
  | .endpoint => ⟨"endpoint:".data ++ decChars r.id⟩
  | .turnout => ⟨"turnout:".data ++ decChars r.id⟩

/-- Track reference parsing (panel_storage.c:221-245): `endpoint:` is
tested first, then `turnout:`; anything else is rejected. -/
def parseRefStr (s : String) : Option (RefType × Nat) :=
  if strStartsWith "endpoint:".data s.data then
    some (.endpoint, atoiNat (s.data.drop 9))
  else if strStartsWith "turnout:".data s.data then
    some (.turnout, atoiNat (s.data.drop 8))
  else none

/-- One serialized panel item (panel_storage.c:284-296). -/
def panelItemToJson (pi : PanelItem) : Json :=
  .obj [("turnout_id", .num (pi.turnout_id : Int)),
        ("grid_x", .num (pi.grid_x : Int)),
        ("grid_y", .num (pi.grid_y : Int)),
        ("rotation", .num (pi.rotation : Int)),
        ("mirrored", .bool pi.mirrored)]

/-- One serialized endpoint (panel_storage.c:299-310). -/
def panelEndpointToJson (pe : PanelEndpoint) : Json :=
  .obj [("id", .num (pe.id : Int)),
        ("grid_x", .num (pe.grid_x : Int)),
        ("grid_y", .num (pe.grid_y : Int))]

/-- One serialized track (panel_storage.c:320-343). -/
def panelTrackToJson (tr : PanelTrack) : Json :=
  .obj [("from", .str (refToStr tr.from_)),
        ("from_point", .str (pointTypeToStr tr.from_.point)),
        ("to", .str (refToStr tr.to_)),
        ("to_point", .str (pointTypeToStr tr.to_.point))]

/-- Serialized layout produced by `panel_storage_save`
(panel_storage.c:262-346): version 2 plus the three arrays and the
endpoint id counter. -/
def panel_storage_save_json (l : PanelLayout) : Json :=
  .obj [("version", .num 2),
        ("items", .arr (l.items.map panelItemToJson)),
        ("endpoints", .arr (l.endpoints.map panelEndpointToJson)),
        ("next_endpoint_id", .num (l.next_endpoint_id : Int)),
        ("tracks", .arr (l.tracks.map panelTrackToJson))]

/-- Per-item body of the panel items loop (panel_storage.c:142-163):
requires a numeric `turnout_id`, defaults the rest; the rotation is
masked with `& 0x07`. -/
def loadPanelItem (j : Json) : Option PanelItem :=
  match j.get? "turnout_id" with
  | some (.num tid) =>
    some { turnout_id := uint32OfInt (valueint tid)
           grid_x := match j.get? "grid_x" with
                     | some (.num v) => uint16OfInt (valueint v)
                     | _ => 0
           grid_y := match j.get? "grid_y" with
                     | some (.num v) => uint16OfInt (valueint v)
                     | _ => 0
           rotation := match j.get? "rotation" with
                       | some (.num v) => ((valueint v) % 8).toNat
                       | _ => 0
           mirrored := match j.get? "mirrored" with
                       | some (.bool b) => b
                       | _ => false }
  | _ => none

/-- Per-endpoint body of the endpoints loop (panel_storage.c:175-191). -/
def loadPanelEndpoint (j : Json) : Option PanelEndpoint :=
  match j.get? "id" with
  | some (.num v) =>
    some { id := uint32OfInt (valueint v)
           grid_x := match j.get? "grid_x" with
                     | some (.num v2) => uint16OfInt (valueint v2)
                     | _ => 0
           grid_y := match j.get? "grid_y" with
                     | some (.num v2) => uint16OfInt (valueint v2)
                     | _ => 0 }
  | _ => none

/-- Per-track body of the tracks loop (panel_storage.c:207-251). -/
def loadPanelTrack (j : Json) : Option PanelTrack :=
  match j.get? "from", j.get? "to" with
  | some (.str fs), some (.str ts) =>
    match parseRefStr fs with
    | none => none
    | some ft =>
      match parseRefStr ts with
      | none => none
      | some tt =>
        some { from_ := { type := ft.1, id := ft.2,
                          point := match j.get? "from_point" with
                                   | some (.str s) => strToPointType s
                                   | _ => .entry }
               to_ := { type := tt.1, id := tt.2,
                        point := match j.get? "to_point" with
                                 | some (.str s) => strToPointType s
                                 | _ => .entry } }
  | _, _ => none

/-- The zeroed layout `panel_storage_load` starts from (its `memset`). -/
def emptyPanelLayout : PanelLayout :=
  { items := [], endpoints := [], next_endpoint_id := 0, tracks := [] }

/-- Embedding of `panel_storage_load` (panel_storage.c:84-260): missing
or malformed file and unknown version all degrade to the empty layout
(always "success"); each array is truncated to its capacity and loaded
entry-wise, skipping invalid entries. -/
def panel_storage_load (file : FileContent) : PanelLayout :=
  match file with
  | .missing => emptyPanelLayout
  | .malformed => emptyPanelLayout
  | .parsed j =>
    let ver : Int := match j.get? "version" with
      | some (.num n) => valueint n
      | _ => -1
    if ver = 1 ∨ ver = 2 then
      { items := match j.get? "items" with
                 | some (.arr xs) => (xs.take PANEL_MAX_ITEMS).filterMap loadPanelItem
                 | _ => []
        endpoints := match j.get? "endpoints" with
                     | some (.arr xs) =>
                       (xs.take PANEL_MAX_ENDPOINTS).filterMap loadPanelEndpoint
                     | _ => []
        next_endpoint_id := match j.get? "next_endpoint_id" with
                            | some (.num n) => uint32OfInt (valueint n)
                            | _ => 1
        tracks := match j.get? "tracks" with
                  | some (.arr xs) => (xs.take PANEL_MAX_TRACKS).filterMap loadPanelTrack
                  | _ => [] }
    else emptyPanelLayout

/-- A `filterMap` whose function is pointwise the identity is the
identity. -/
theorem filterMap_eq_self (g : α → Option α) (xs : List α)
    (h : ∀ x ∈ xs, g x = some x) : xs.filterMap g = xs := by
  induction xs with
  | nil => rfl
  | cons x rest ih =>
    rw [List.filterMap_cons, h x (by simp)]
    rw [ih (fun y hy => h y (by simp [hy]))]

/-- A tag matches any string it starts. -/
theorem strStartsWith_append (p rest : List Char) :
    strStartsWith p (p ++ rest) = true := by
  induction p with
  | nil => rfl
  | cons c cs ih => simp [strStartsWith, ih]

/-- Parsing inverts rendering for track references. -/
theorem parseRefStr_refToStr (r : PanelRef) :
    parseRefStr (refToStr r) = some (r.type, r.id) := by
  cases htype : r.type with
  | turnout =>
    have hne : strStartsWith "endpoint:".data ("turnout:".data ++ decChars r.id) = false := by
      simp [strStartsWith, String.data]
    have hlen : "turnout:".data.length = 8 := rfl
    simp only [refToStr, htype, parseRefStr, hne, Bool.false_eq_true, if_false,
      strStartsWith_append, if_true]
    rw [show ("turnout:".data ++ decChars r.id).drop 8 =
      ("turnout:".data ++ decChars r.id).drop "turnout:".data.length from rfl]
    rw [List.drop_left, atoiNat_decChars]
  | endpoint =>
    have hlen : "endpoint:".data.length = 9 := rfl
    simp only [refToStr, htype, parseRefStr, strStartsWith_append, if_true]
    rw [show ("endpoint:".data ++ decChars r.id).drop 9 =
      ("endpoint:".data ++ decChars r.id).drop "endpoint:".data.length from rfl]
    rw [List.drop_left, atoiNat_decChars]

/-- Parsing inverts rendering for point types. -/
theorem strToPointType_pointTypeToStr (p : PointType) :
    strToPointType (pointTypeToStr p) = p := by
  cases p <;> rfl

/-- Reloading one saved panel item recovers it. -/
theorem loadPanelItem_toJson (pi : PanelItem) (h1 : pi.turnout_id < 2 ^ 31)
    (h2 : pi.grid_x < 65536) (h3 : pi.grid_y < 65536) (h4 : pi.rotation < 8) :
    loadPanelItem (panelItemToJson pi) = some pi := by
  have g1 : (panelItemToJson pi).get? "turnout_id" = some (.num (pi.turnout_id : Int)) := rfl
  have g2 : (panelItemToJson pi).get? "grid_x" = some (.num (pi.grid_x : Int)) := rfl
  have g3 : (panelItemToJson pi).get? "grid_y" = some (.num (pi.grid_y : Int)) := rfl
  have g4 : (panelItemToJson pi).get? "rotation" = some (.num (pi.rotation : Int)) := rfl
  have g5 : (panelItemToJson pi).get? "mirrored" = some (.bool pi.mirrored) := rfl
  have e1 : uint32OfInt (valueint (pi.turnout_id : Int)) = pi.turnout_id := by
    simp only [uint32OfInt, valueint]; omega
  have e2 : uint16OfInt (valueint (pi.grid_x : Int)) = pi.grid_x := by
    simp only [uint16OfInt, valueint]; omega
  have e3 : uint16OfInt (valueint (pi.grid_y : Int)) = pi.grid_y := by
    simp only [uint16OfInt, valueint]; omega
  have e4 : ((valueint (pi.rotation : Int)) % 8).toNat = pi.rotation := by
    simp only [valueint]; omega
  simp only [loadPanelItem, g1, g2, g3, g4, g5, e1, e2, e3, e4]

/-- Reloading one saved endpoint recovers it. -/
theorem loadPanelEndpoint_toJson (pe : PanelEndpoint) (h1 : pe.id < 2 ^ 31)
    (h2 : pe.grid_x < 65536) (h3 : pe.grid_y < 65536) :
    loadPanelEndpoint (panelEndpointToJson pe) = some pe := by
  have g1 : (panelEndpointToJson pe).get? "id" = some (.num (pe.id : Int)) := rfl
  have g2 : (panelEndpointToJson pe).get? "grid_x" = some (.num (pe.grid_x : Int)) := rfl
  have g3 : (panelEndpointToJson pe).get? "grid_y" = some (.num (pe.grid_y : Int)) := rfl
  have e1 : uint32OfInt (valueint (pe.id : Int)) = pe.id := by
    simp only [uint32OfInt, valueint]; omega
  have e2 : uint16OfInt (valueint (pe.grid_x : Int)) = pe.grid_x := by
    simp only [uint16OfInt, valueint]; omega
  have e3 : uint16OfInt (valueint (pe.grid_y : Int)) = pe.grid_y := by
    simp only [uint16OfInt, valueint]; omega
  simp only [loadPanelEndpoint, g1, g2, g3, e1, e2, e3]

/-- Reloading one saved track recovers it. -/
theorem loadPanelTrack_toJson (tr : PanelTrack) :
    loadPanelTrack (panelTrackToJson tr) = some tr := by
  have g1 : (panelTrackToJson tr).get? "from" = some (.str (refToStr tr.from_)) := rfl
  have g2 : (panelTrackToJson tr).get? "to" = some (.str (refToStr tr.to_)) := rfl
  have g3 : (panelTrackToJson tr).get? "from_point" =
      some (.str (pointTypeToStr tr.from_.point)) := rfl
  have g4 : (panelTrackToJson tr).get? "to_point" =
      some (.str (pointTypeToStr tr.to_.point)) := rfl
  simp only [loadPanelTrack, g1, g2, g3, g4, parseRefStr_refToStr,
    strToPointType_pointTypeToStr]

/-- Well-formedness of an in-memory layout as the C types and the data
model give it: counts within the fixed capacities, `uint16` grid
coordinates, rotation index 0-7, and ids within `int` range (the load
path goes through cJSON's `valueint` and `atoi`). -/
def PanelLayoutWF (l : PanelLayout) : Prop :=
  l.items.length ≤ PANEL_MAX_ITEMS ∧ l.endpoints.length ≤ PANEL_MAX_ENDPOINTS ∧
  l.tracks.length ≤ PANEL_MAX_TRACKS ∧ l.next_endpoint_id < 2 ^ 31 ∧
  (∀ pi ∈ l.items, pi.turnout_id < 2 ^ 31 ∧ pi.grid_x < 65536 ∧
    pi.grid_y < 65536 ∧ pi.rotation < 8) ∧
  (∀ pe ∈ l.endpoints, pe.id < 2 ^ 31 ∧ pe.grid_x < 65536 ∧ pe.grid_y < 65536)

/-- Loading a saved layout recovers it exactly. -/
theorem panel_load_save (l : PanelLayout) (hwf : PanelLayoutWF l) :
    panel_storage_load (.parsed (panel_storage_save_json l)) = l := by
  obtain ⟨hic, hec, htc, hnid, hiwf, hewf⟩ := hwf
  have gv : (panel_storage_save_json l).get? "version" = some (.num 2) := rfl
  have gi : (panel_storage_save_json l).get? "items" =
      some (.arr (l.items.map panelItemToJson)) := rfl
  have ge : (panel_storage_save_json l).get? "endpoints" =
      some (.arr (l.endpoints.map panelEndpointToJson)) := rfl
  have gn : (panel_storage_save_json l).get? "next_endpoint_id" =
      some (.num (l.next_endpoint_id : Int)) := rfl
  have gt : (panel_storage_save_json l).get? "tracks" =
      some (.arr (l.tracks.map panelTrackToJson)) := rfl
  have hti : (l.items.map panelItemToJson).take PANEL_MAX_ITEMS =
      l.items.map panelItemToJson :=
    List.take_of_length_le (by simpa using hic)
  have hte : (l.endpoints.map panelEndpointToJson).take PANEL_MAX_ENDPOINTS =
      l.endpoints.map panelEndpointToJson :=
    List.take_of_length_le (by simpa using hec)
  have htt : (l.tracks.map panelTrackToJson).take PANEL_MAX_TRACKS =
      l.tracks.map panelTrackToJson :=
    List.take_of_length_le (by simpa using htc)
  have hfi : (l.items.map panelItemToJson).filterMap loadPanelItem = l.items := by
    rw [List.filterMap_map]
    exact filterMap_eq_self _ _ (fun pi hpi => by
      obtain ⟨a, b, c, d⟩ := hiwf pi hpi
      exact loadPanelItem_toJson pi a b c d)
  have hfe : (l.endpoints.map panelEndpointToJson).filterMap loadPanelEndpoint =
      l.endpoints := by
    rw [List.filterMap_map]
    exact filterMap_eq_self _ _ (fun pe hpe => by
      obtain ⟨a, b, c⟩ := hewf pe hpe
      exact loadPanelEndpoint_toJson pe a b c)
  have hft : (l.tracks.map panelTrackToJson).filterMap loadPanelTrack = l.tracks := by
    rw [List.filterMap_map]
    exact filterMap_eq_self _ _ (fun tr _ => loadPanelTrack_toJson tr)
  have hn : uint32OfInt (valueint (l.next_endpoint_id : Int)) = l.next_endpoint_id := by
    simp only [uint32OfInt, valueint]; omega
  have hv2 : valueint 2 = 2 := by decide
  simp only [panel_storage_load, gv, gi, ge, gn, gt, hv2]
  norm_num
  simp only [hti, hte, htt, hfi, hfe, hft, hn]

/-- C7: the serialize/parse pair round-trips for both stores.  For a
well-formed roster within capacity, loading the saved file recovers
every persisted field (runtime state reset) and re-saving produces the
identical serialized tree; for a well-formed layout within capacity,
loading the saved file recovers the layout exactly, so re-saving is
identical as well. -/
theorem save_load_roundtrip (ts : List Turnout) (l : PanelLayout)
    (hts : ∀ t ∈ ts, TurnoutWF t) (hcap : ts.length ≤ TURNOUT_MAX_COUNT)
    (hl : PanelLayoutWF l) :
    (turnout_storage_load (.parsed (turnout_storage_save_json ts))
        TURNOUT_MAX_COUNT).1 = ts.map reloadTurnout ∧
    (turnout_storage_load (.parsed (turnout_storage_save_json ts))
        TURNOUT_MAX_COUNT).2 = .ok ∧
    turnout_storage_save_json
      (turnout_storage_load (.parsed (turnout_storage_save_json ts))
        TURNOUT_MAX_COUNT).1 = turnout_storage_save_json ts ∧
    panel_storage_load (.parsed (panel_storage_save_json l)) = l ∧
    panel_storage_save_json
        (panel_storage_load (.parsed (panel_storage_save_json l))) =
      panel_storage_save_json l := by
  have gts : (turnout_storage_save_json ts).get? "turnouts" =
      some (.arr (ts.map turnoutToJson)) := rfl
  have hload : (turnout_storage_load (.parsed (turnout_storage_save_json ts))
      TURNOUT_MAX_COUNT).1 = ts.map reloadTurnout := by
    simp only [turnout_storage_load, gts]
    exact loadTurnoutsGo_map ts 0 TURNOUT_MAX_COUNT hts (by omega)
  refine ⟨hload, by simp only [turnout_storage_load, gts], ?_, panel_load_save l hl, ?_⟩
  · rw [hload]
    simp only [turnout_storage_save_json, List.map_map]
    have : ∀ t : Turnout, turnoutToJson (reloadTurnout t) = turnoutToJson t := fun _ => rfl
    congr 1
  · rw [panel_load_save l hl]

/-- Witness for C7: a concrete one-entry roster and the concrete example
layout round-trip. -/
theorem save_load_roundtrip_witness :
    (turnout_storage_load (.parsed (turnout_storage_save_json [exT1]))
        TURNOUT_MAX_COUNT).1 = [exT1] ∧
    panel_storage_load (.parsed (panel_storage_save_json exLayout)) = exLayout := by
  have h := save_load_roundtrip [exT1] exLayout
    (by intro t ht; simp at ht; subst ht; exact ⟨by decide, by decide, by decide, by decide⟩)
    (by decide)
    (by refine ⟨by decide, by decide, by decide, by decide, ?_, ?_⟩ <;> decide)
  refine ⟨?_, h.2.2.2.1⟩
  rw [h.1]
  decide

/-- A roster file carrying an unknown version number but a valid entry. -/
def badVersionRosterJson : Json :=
  Json.obj [("version", Json.num 999),
    ("turnouts", Json.arr [Json.obj
      [("name", Json.str "X"),
       ("event_normal", Json.str "05.01.01.01.22.60.00.00"),
       ("event_reverse", Json.str "05.01.01.01.22.60.00.01"),
       ("order", Json.num 0)]])]

/-- Counterexample for C5 as stated: the roster store does not gate
parsing on the version field — a file with version 999 still loads its
turnout entries (the claim requires it to be treated as missing, i.e.
loaded empty). -/
theorem roster_load_ignores_version_counterexample :
    (turnout_storage_load (.parsed badVersionRosterJson) 150).1.length = 1 ∧
    (turnout_storage_load (.parsed badVersionRosterJson) 150).2 = .ok := by
  exact ⟨by decide, rfl⟩

/-- Capacity break of the roster load loop. -/
theorem loadTurnoutsGo_stop (l : List Json) (count max_count : Nat)
    (h : count ≥ max_count) : loadTurnoutsGo l count max_count = [] := by
  cases l with
  | nil => rfl
  | cons j rest => simp [loadTurnoutsGo, h]

/-- C5 (amended): missing and malformed files degrade to the empty model
for both stores (the roster store signals `ESP_ERR_NOT_FOUND` /
`ESP_FAIL`, which its caller treats as an empty roster); the PANEL store
gates parsing on the version field (unknown version ⇒ empty layout), but
the ROSTER store ignores the version field entirely; a per-entry
validation failure — a missing/non-string or unparsable event id for the
roster, a missing turnout id for the panel — skips exactly that entry
while the surrounding entries still load. -/
theorem load_tolerance_spec :
    (∀ max_count, turnout_storage_load .missing max_count = ([], .notFound)) ∧
    (∀ max_count, turnout_storage_load .malformed max_count = ([], .fail)) ∧
    (∀ (v : Int) fields max_count,
      turnout_storage_load (.parsed (Json.obj (("version", Json.num v) :: fields)))
        max_count =
      turnout_storage_load (.parsed (Json.obj fields)) max_count) ∧
    panel_storage_load .missing = emptyPanelLayout ∧
    panel_storage_load .malformed = emptyPanelLayout ∧
    (∀ (j : Json) (ver : Int), j.get? "version" = some (.num ver) →
      valueint ver ≠ 1 → valueint ver ≠ 2 →
      panel_storage_load (.parsed j) = emptyPanelLayout) ∧
    (∀ pre post (m : Json) count max_count,
      (∀ c, loadTurnoutEntry m c = none) →
      loadTurnoutsGo (pre ++ m :: post) count max_count =
        loadTurnoutsGo (pre ++ post) count max_count) ∧
    (∀ (m : Json), (∀ s, m.get? "event_normal" ≠ some (Json.str s)) →
      ∀ c, loadTurnoutEntry m c = none) ∧
    (∀ (m : Json) s, m.get? "event_normal" = some (Json.str s) →
      parse_event_id s = none → ∀ c, loadTurnoutEntry m c = none) ∧
    (∀ pre post (m : Json),
      loadPanelItem m = none →
      (pre ++ m :: post).length ≤ PANEL_MAX_ITEMS →
      ((pre ++ m :: post).take PANEL_MAX_ITEMS).filterMap loadPanelItem =
        ((pre ++ post).take PANEL_MAX_ITEMS).filterMap loadPanelItem) := by
  have hbeq : (("version" : String) == "turnouts") = false := by decide
  refine ⟨fun _ => rfl, fun _ => rfl, ?_, rfl, rfl, ?_, ?_, ?_, ?_, ?_⟩
  · intro v fields max_count
    have hsame : (Json.obj (("version", Json.num v) :: fields)).get? "turnouts" =
        (Json.obj fields).get? "turnouts" := by
      simp [Json.get?, List.find?, hbeq]
    simp only [turnout_storage_load, hsame]
  · intro j ver hver h1 h2
    have hcond : ¬(valueint ver = 1 ∨ valueint ver = 2) := by
      rintro (h | h)
      · exact h1 h
      · exact h2 h
    simp only [panel_storage_load, hver, if_neg hcond]
  · intro pre post m count max_count hm
    induction pre generalizing count with
    | nil =>
      by_cases h : count ≥ max_count
      · rw [List.nil_append, List.nil_append, loadTurnoutsGo_stop _ _ _ h,
          loadTurnoutsGo_stop _ _ _ h]
      · simp only [List.nil_append, loadTurnoutsGo, if_neg h, hm count]
    | cons p ps ih =>
      by_cases h : count ≥ max_count
      · rw [List.cons_append, List.cons_append, loadTurnoutsGo_stop _ _ _ h,
          loadTurnoutsGo_stop _ _ _ h]
      · simp only [List.cons_append, loadTurnoutsGo, if_neg h]
        cases hp : loadTurnoutEntry p count with
        | none =>
          have h2 := ih count
          simp only [List.append_eq] at h2
          simp [h2]
        | some t =>
          have h2 := ih (count + 1)
          simp only [List.append_eq] at h2
          simp [h2]
  · intro m hm c
    simp only [loadTurnoutEntry]
  · intro m s hev hparse c
    simp only [loadTurnoutEntry, hev, hparse]
  · intro pre post m hm hlen
    have hlen2 : (pre ++ post).length ≤ PANEL_MAX_ITEMS := by
      simp only [List.length_append, List.length_cons] at hlen ⊢
      omega
    rw [List.take_of_length_le hlen, List.take_of_length_le hlen2,
      List.filterMap_append, List.filterMap_append, List.filterMap_cons, hm]

/-- Witness for C5 (amended): concrete instances — a missing roster file
loads empty with NotFound; a version-999 roster file loads the same as
one with no version field; an entry with event id "zz" inside a
two-entry roster is skipped while both neighbours load. -/
theorem load_tolerance_spec_witness :
    turnout_storage_load .missing 150 = ([], .notFound) ∧
    turnout_storage_load (.parsed (Json.obj [("version", Json.num 999),
        ("turnouts", Json.arr [turnoutToJson exT1])])) 150 =
      turnout_storage_load (.parsed (Json.obj
        [("turnouts", Json.arr [turnoutToJson exT1])])) 150 ∧
    loadTurnoutsGo [turnoutToJson exT1,
        Json.obj [("name", Json.str "bad"), ("event_normal", Json.str "zz")],
        turnoutToJson { exT1 with event_normal := 5, event_reverse := 6 }] 0 150 =
      loadTurnoutsGo [turnoutToJson exT1,
        turnoutToJson { exT1 with event_normal := 5, event_reverse := 6 }] 0 150 := by
  have h := load_tolerance_spec
  refine ⟨h.1 150, h.2.2.1 999 [("turnouts", Json.arr [turnoutToJson exT1])] 150, ?_⟩
  have hbad : ∀ c, loadTurnoutEntry
      (Json.obj [("name", Json.str "bad"), ("event_normal", Json.str "zz")]) c = none :=
    h.2.2.2.2.2.2.2.2.1 _ "zz" rfl (by decide)
  have := h.2.2.2.2.2.2.1 [turnoutToJson exT1]
    [turnoutToJson { exT1 with event_normal := 5, event_reverse := 6 }]
    (Json.obj [("name", Json.str "bad"), ("event_normal", Json.str "zz")]) 0 150 hbad
  simpa using this

/-! JMRI roster import (turnout_storage.c:256-512). -/

/-- One `<turnout ...>...</turnout>` block of the JMRI import file, as
the scanner extracts it: either its systemName is absent or does not
parse into two event ids (`bad`), or it yields the two ids, the
`inverted` attribute and the (possibly empty) user name. -/
inductive JmriRecord
  | bad
  | good (ev1 ev2 : Nat) (inverted : Bool) (userName : String)

/-- Embedding of `event_already_exists` (turnout_storage.c:259-271):
tests the candidate pair against all four cross combinations of each
existing turnout's normal and reverse ids. -/
def event_already_exists (ts : List Turnout) (ev_normal ev_reverse : Nat) : Bool :=
  ts.any fun t =>
    t.event_normal == ev_normal || t.event_reverse == ev_reverse ||
    t.event_normal == ev_reverse || t.event_reverse == ev_normal

/-- Turnout appended by the import loop (turnout_storage.c:475-489). -/
def jmriTurnout (evN evR : Nat) (userName : String) (imported count : Nat) : Turnout :=
  { id := 0
    name := if userName ≠ "" then takeCStr 31 userName
            else "JMRI Turnout " ++ toString (imported + 1)
    event_normal := evN
    event_reverse := evR
    state := .unknown
    last_update_us := 0
    command_pending := false
    user_order := count }

/-- Scan loop of `turnout_storage_import_jmri`
(turnout_storage.c:400-501): stops at capacity, skips malformed records
and records whose (normal, reverse) pair — after the `inverted` swap —
already exists, and appends the rest. -/
def importJmriGo (ts : List Turnout) (imported : Nat) :
    List JmriRecord → Nat → List Turnout
  | [], _ => ts
  | r :: rest, max_count =>
    if ts.length ≥ max_count then ts
    else match r with
      | .bad => importJmriGo ts imported rest max_count
      | .good ev1 ev2 inverted userName =>
        if event_already_exists ts (if inverted then ev2 else ev1)
            (if inverted then ev1 else ev2) then
          importJmriGo ts imported rest max_count
        else
          importJmriGo
            (ts ++ [jmriTurnout (if inverted then ev2 else ev1)
              (if inverted then ev1 else ev2) userName imported ts.length])
            (imported + 1) rest max_count

/-- Embedding of `turnout_storage_import_jmri`
(turnout_storage.c:364-512) over the parsed record list of the import
file; the raw XML scan is deterministic, so the same file yields the
same record list on every run. -/
def turnout_storage_import_jmri (ts : List Turnout) (recs : List JmriRecord)
    (max_count : Nat) : List Turnout :=
  importJmriGo ts 0 recs max_count

/-- The import only appends to the roster. -/
theorem importJmriGo_append (recs : List JmriRecord) (ts : List Turnout)
    (imported max_count : Nat) :
    ∃ u, importJmriGo ts imported recs max_count = ts ++ u := by
  induction recs generalizing ts imported with
  | nil => exact ⟨[], by simp [importJmriGo]⟩
  | cons r rest ih =>
    by_cases h : ts.length ≥ max_count
    · exact ⟨[], by simp [importJmriGo, h]⟩
    · cases r with
      | bad =>
        obtain ⟨u, hu⟩ := ih ts imported
        exact ⟨u, by simpa [importJmriGo, h] using hu⟩
      | good ev1 ev2 inverted userName =>
        by_cases hdup : event_already_exists ts (if inverted then ev2 else ev1)
            (if inverted then ev1 else ev2) = true
        · obtain ⟨u, hu⟩ := ih ts imported
          exact ⟨u, by simpa [importJmriGo, h, hdup] using hu⟩
        · obtain ⟨u, hu⟩ := ih
            (ts ++ [jmriTurnout (if inverted then ev2 else ev1)
              (if inverted then ev1 else ev2) userName imported ts.length])
            (imported + 1)
          refine ⟨[jmriTurnout (if inverted then ev2 else ev1)
              (if inverted then ev1 else ev2) userName imported ts.length] ++ u, ?_⟩
          simp only [importJmriGo, if_neg h, hdup, Bool.false_eq_true, if_false]
          rw [hu, List.append_assoc]

/-- Duplicate detection is monotone under roster growth. -/
theorem event_already_exists_mono (ts u : List Turnout) (evN evR : Nat)
    (h : event_already_exists ts evN evR = true) :
    event_already_exists (ts ++ u) evN evR = true := by
  simp only [event_already_exists] at h ⊢
  rw [List.any_append, h, Bool.true_or]

/-- A record is inert against a roster state: malformed, a duplicate of
the state, or the state is at capacity. -/
def recSkips (ts : List Turnout) (max_count : Nat) : JmriRecord → Prop
  | .bad => True
  | .good ev1 ev2 inverted _ =>
    event_already_exists ts (if inverted then ev2 else ev1)
      (if inverted then ev1 else ev2) = true ∨ ts.length ≥ max_count

/-- After one import run, every record of the file is inert against the
resulting roster: it was skipped as a duplicate (still one against the
larger final roster), it was appended (so its pair now exists), or the
roster is full. -/
theorem importJmriGo_covers (recs : List JmriRecord) (ts : List Turnout)
    (imported max_count : Nat) :
    ∀ r ∈ recs, recSkips (importJmriGo ts imported recs max_count) max_count r := by
  induction recs generalizing ts imported with
  | nil => intro r hr; simp at hr
  | cons r0 rest ih =>
    intro r hr
    by_cases h : ts.length ≥ max_count
    · have hfix : importJmriGo ts imported (r0 :: rest) max_count = ts := by
        simp [importJmriGo, h]
      rw [hfix]
      cases r with
      | bad => trivial
      | good ev1 ev2 inverted userName => exact Or.inr h
    · rcases List.mem_cons.mp hr with hr0 | hrest
      · subst hr0
        cases r with
        | bad => trivial
        | good ev1 ev2 inverted userName =>
          by_cases hdup : event_already_exists ts (if inverted then ev2 else ev1)
              (if inverted then ev1 else ev2) = true
          · have hfix : importJmriGo ts imported (JmriRecord.good ev1 ev2 inverted userName :: rest)
                max_count = importJmriGo ts imported rest max_count := by
              simp [importJmriGo, h, hdup]
            rw [hfix]
            obtain ⟨u, hu⟩ := importJmriGo_append rest ts imported max_count
            rw [hu]
            exact Or.inl (event_already_exists_mono ts u _ _ hdup)
          · have hfix : importJmriGo ts imported (JmriRecord.good ev1 ev2 inverted userName :: rest)
                max_count = importJmriGo
                  (ts ++ [jmriTurnout (if inverted then ev2 else ev1)
                    (if inverted then ev1 else ev2) userName imported ts.length])
                  (imported + 1) rest max_count := by
              simp [importJmriGo, h, hdup]
            rw [hfix]
            obtain ⟨u, hu⟩ := importJmriGo_append rest
              (ts ++ [jmriTurnout (if inverted then ev2 else ev1)
                (if inverted then ev1 else ev2) userName imported ts.length])
              (imported + 1) max_count
            rw [hu]
            refine Or.inl (event_already_exists_mono _ u _ _ ?_)
            simp only [event_already_exists, List.any_append, List.any_cons,
              List.any_nil, jmriTurnout]
            simp
      · cases r0 with
        | bad =>
          have hfix : importJmriGo ts imported (JmriRecord.bad :: rest) max_count =
              importJmriGo ts imported rest max_count := by
            simp [importJmriGo, h]
          rw [hfix]
          exact ih ts imported r hrest
        | good ev1 ev2 inverted userName =>
          by_cases hdup : event_already_exists ts (if inverted then ev2 else ev1)
              (if inverted then ev1 else ev2) = true
          · have hfix : importJmriGo ts imported
                (JmriRecord.good ev1 ev2 inverted userName :: rest) max_count =
                importJmriGo ts imported rest max_count := by
              simp [importJmriGo, h, hdup]
            rw [hfix]
            exact ih ts imported r hrest
          · have hfix : importJmriGo ts imported
                (JmriRecord.good ev1 ev2 inverted userName :: rest) max_count =
                importJmriGo
                  (ts ++ [jmriTurnout (if inverted then ev2 else ev1)
                    (if inverted then ev1 else ev2) userName imported ts.length])
                  (imported + 1) rest max_count := by
              simp [importJmriGo, h, hdup]
            rw [hfix]
            exact ih _ (imported + 1) r hrest

/-- A run over records that are all inert changes nothing. -/
theorem importJmriGo_skips_all (recs : List JmriRecord) (F : List Turnout)
    (imported max_count : Nat)
    (h : ∀ r ∈ recs, recSkips F max_count r) :
    importJmriGo F imported recs max_count = F := by
  induction recs generalizing imported with
  | nil => rfl
  | cons r rest ih =>
    by_cases hcap : F.length ≥ max_count
    · simp [importJmriGo, hcap]
    · cases r with
      | bad =>
        have hfix : importJmriGo F imported (JmriRecord.bad :: rest) max_count =
            importJmriGo F imported rest max_count := by
          simp [importJmriGo, hcap]
        rw [hfix]
        exact ih imported (fun q hq => h q (by simp [hq]))
      | good ev1 ev2 inverted userName =>
        have hdup : event_already_exists F (if inverted then ev2 else ev1)
            (if inverted then ev1 else ev2) = true := by
          rcases h (JmriRecord.good ev1 ev2 inverted userName) (by simp) with hd | hc
          · exact hd
          · exact absurd hc hcap
        have hfix : importJmriGo F imported
            (JmriRecord.good ev1 ev2 inverted userName :: rest) max_count =
            importJmriGo F imported rest max_count := by
          simp [importJmriGo, hcap, hdup]
        rw [hfix]
        exact ih imported (fun q hq => h q (by simp [hq]))

/-- C8: the JMRI import is idempotent — running the import a second time
on the same file against the roster produced by the first run changes
nothing (adds zero new turnouts), because every record is now either
malformed, beyond capacity, or a duplicate of the merged roster under
the 4-way cross check of `event_already_exists`. -/
theorem import_jmri_idempotent (ts : List Turnout) (recs : List JmriRecord)
    (max_count : Nat) :
    turnout_storage_import_jmri
        (turnout_storage_import_jmri ts recs max_count) recs max_count =
      turnout_storage_import_jmri ts recs max_count ∧
    (turnout_storage_import_jmri
        (turnout_storage_import_jmri ts recs max_count) recs max_count).length =
      (turnout_storage_import_jmri ts recs max_count).length := by
  have hmain : turnout_storage_import_jmri
      (turnout_storage_import_jmri ts recs max_count) recs max_count =
      turnout_storage_import_jmri ts recs max_count := by
    unfold turnout_storage_import_jmri
    exact importJmriGo_skips_all recs _ 0 max_count
      (importJmriGo_covers recs ts 0 max_count)
  exact ⟨hmain, by rw [hmain]⟩

end LCC
